import Mathlib

/-!
Verification of the session-reconciliation subsystem of a collaborative
messaging client (src/stores/session.ts together with its caller
src/composables/useGetParticipants.js).

The store is shallowly embedded: the pinia state becomes an explicit
`StoreState` record threaded through the actions, the vuex roster
collaborator becomes a list of participants together with an explicit
trace of the `updateParticipant` commands committed to it, and the
duck-typed signaling payloads become a record of optional fields whose
presence mirrors the JavaScript `in` checks.  JavaScript truthiness of
the identifiers involved (empty string, zero) is modelled explicitly.
The one throwing operation, `findOrCreateSession`, returns `Except`.
-/

deriving instance DecidableEq for Except

namespace Spreed

/-- PARTICIPANT.CALL_FLAG.DISCONNECTED from constants.ts (not part of the
extracted sources; its value 0 is evidenced by the tests, which expect
`inCall: 0` on every disconnect update). -/
def CALL_FLAG_DISCONNECTED : Nat := 0

/-- ATTENDEE.ACTOR_TYPE.USERS from constants.ts. -/
def ACTOR_TYPE_USERS : String := "users"

/-- ATTENDEE.ACTOR_TYPE.FEDERATED_USERS from constants.ts. -/
def ACTOR_TYPE_FEDERATED_USERS : String := "federated_users"

/-- ATTENDEE.ACTOR_TYPE.GUESTS from constants.ts. -/
def ACTOR_TYPE_GUESTS : String := "guests"

/-- JavaScript truthiness of an optional string (undefined and the empty
string are falsy). -/
def truthyStr : Option String → Bool
  | none => false
  | some s => decide (s ≠ "")

/-- JavaScript truthiness of an optional number (undefined and 0 are falsy). -/
def truthyNat : Option Nat → Bool
  | none => false
  | some n => decide (n ≠ 0)

/-- The duck-typed union `SignalingSessionPayload` of the source: one record
of optional fields, where `none` models the absence of the field (the
JavaScript `in` operator) and `some` its presence.  The fields are those of
the three wire shapes: internal-signaling snapshot entries
(`roomId`, `sessionId`, `actorId`, `actorType`, `inCall`, `lastPing`,
`participantPermissions`), standalone join events (`sessionid`,
`roomsessionid`, `userid`, `user.displayname`, `federated`) and standalone
update events (`sessionId`, `userId`, `inCall`, `participantType`,
`lastPing`, `participantPermissions`, `displayName`). -/
structure SignalingSessionPayload where
  roomId : Option Nat := none
  sessionId : Option String := none
  sessionid : Option String := none
  roomsessionid : Option String := none
  userid : Option String := none
  userDisplayname : Option String := none
  federated : Bool := false
  nextcloudSessionId : Option String := none
  actorId : Option String := none
  actorType : Option String := none
  userId : Option String := none
  inCall : Nat := 0
  lastPing : Nat := 0
  participantPermissions : Nat := 0
  participantType : Nat := 0
  displayName : Option String := none
deriving DecidableEq

/-- `isInternalSignalingSession` on a single payload: presence of `roomId`. -/
def isInternalSignalingSession (item : SignalingSessionPayload) : Bool :=
  item.roomId.isSome

/-- `isStandaloneSignalingJoinSession`: presence of the lower-case
`sessionid`. -/
def isStandaloneSignalingJoinSession (item : SignalingSessionPayload) : Bool :=
  item.sessionid.isSome

/-- `isStandaloneSignalingUpdateSession`: absence of `roomId` and presence
of the camel-case `sessionId`. -/
def isStandaloneSignalingUpdateSession (item : SignalingSessionPayload) : Bool :=
  !item.roomId.isSome && item.sessionId.isSome

/-- The `Session` record of the store. -/
structure Session where
  attendeeId : Option Nat
  token : String
  signalingSessionId : String
  sessionId : Option String
deriving DecidableEq

/-- A participant record of the external roster collaborator (spec section 3). -/
structure Participant where
  attendeeId : Nat
  actorId : String
  actorType : String
  displayName : String
  inCall : Nat
  lastPing : Nat
  permissions : Nat
  participantType : Nat
  sessionIds : List String
deriving DecidableEq

/-- The `updatedData` part of an `updateParticipant` command
(`ParticipantUpdatePayload` in the source); `none` models an absent field,
which the roster collaborator leaves unchanged on merge. -/
structure ParticipantUpdatePayload where
  attendeeId : Option Nat := none
  displayName : Option String := none
  inCall : Option Nat := none
  lastPing : Option Nat := none
  permissions : Option Nat := none
  participantType : Option Nat := none
  sessionIds : Option (List String) := none
deriving DecidableEq

/-- One `store.commit(updateParticipant, ...)` call issued to the roster. -/
structure Command where
  token : String
  attendeeId : Nat
  updatedData : ParticipantUpdatePayload
deriving DecidableEq

/-- The whole observable state: the session registry (insertion-ordered,
keyed by `signalingSessionId`), the external roster, and the ordered trace
of commands committed to the roster. -/
structure StoreState where
  sessions : List Session
  roster : List Participant
  trace : List Command
deriving DecidableEq

/-- Whether a roster participant matches a `findParticipant` query. -/
def findParticipantMatch (p : Participant) (sessionId : Option String)
    (actorId : Option String) (actorType : Option String) : Bool :=
  (match sessionId with
   | some sid => decide (sid ∈ p.sessionIds)
   | none => false)
  || (match actorId, actorType with
      | some a, some t => decide (a = p.actorId ∧ t = p.actorType)
      | _, _ => false)

/-- Modelled from the spec: `store.getters.findParticipant(token, ...)` of the
roster collaborator, which is out of scope of the extracted sources (spec
section 6: identity resolution with exact match semantics; a participant is
matched either by the queried room-session id or by its actor identity). -/
def findParticipant : List Participant → Option String → Option String →
    Option String → Option Participant
  | [], _, _, _ => none
  | p :: rest, sessionId, actorId, actorType =>
    if findParticipantMatch p sessionId actorId actorType then some p
    else findParticipant rest sessionId actorId actorType

/-- Modelled from the spec: `store.getters.getParticipant(token, attendeeId)`
of the roster collaborator (lookup by attendee id, `null` when absent). -/
def getParticipant : List Participant → Nat → Option Participant
  | [], _ => none
  | p :: rest, attendeeId =>
    if p.attendeeId = attendeeId then some p else getParticipant rest attendeeId

/-- Modelled from the spec: the merge applied by the roster collaborator on an
`updateParticipant` commit (spec section 6: partial-field merge, fields not
present in `updatedData` are left unchanged). -/
def mergeParticipant (p : Participant) (u : ParticipantUpdatePayload) : Participant :=
  { p with
    displayName := u.displayName.getD p.displayName
    inCall := u.inCall.getD p.inCall
    lastPing := u.lastPing.getD p.lastPing
    permissions := u.permissions.getD p.permissions
    participantType := u.participantType.getD p.participantType
    sessionIds := u.sessionIds.getD p.sessionIds }

/-- Apply an `updateParticipant` merge to the participant with the given id. -/
def applyUpdate : List Participant → Nat → ParticipantUpdatePayload → List Participant
  | [], _, _ => []
  | p :: rest, attendeeId, u =>
    if p.attendeeId = attendeeId then mergeParticipant p u :: applyUpdate rest attendeeId u
    else p :: applyUpdate rest attendeeId u

/-- `store.commit(updateParticipant, { token, attendeeId, updatedData })`:
record the command in the trace and merge it into the roster. -/
def commitUpdateParticipant (st : StoreState) (token : String) (attendeeId : Nat)
    (u : ParticipantUpdatePayload) : StoreState :=
  { st with
    roster := applyUpdate st.roster attendeeId u
    trace := st.trace ++ [⟨token, attendeeId, u⟩] }

/-- Registry lookup by key (the record access `state.sessions[id]`). -/
def findSessionByKey : List Session → String → Option Session
  | [], _ => none
  | s :: rest, sid =>
    if s.signalingSessionId = sid then some s else findSessionByKey rest sid

/-- The `getSession` getter: returns `undefined` for a falsy id. -/
def getSession (sessions : List Session) (signalingSessionId : Option String) :
    Option Session :=
  match signalingSessionId with
  | some sid => if sid = "" then none else findSessionByKey sessions sid
  | none => none

/-- `Vue.set(this.sessions, key, session)`: replace the record with the same
key in place, or append the new record. -/
def setSessionByKey : List Session → Session → List Session
  | [], session => [session]
  | s :: rest, session =>
    if s.signalingSessionId = session.signalingSessionId then session :: rest
    else s :: setSessionByKey rest session

/-- The `deleteSession` action (a no-op when the key is absent). -/
def deleteSession : List Session → String → List Session
  | [], _ => []
  | s :: rest, sid =>
    if s.signalingSessionId = sid then deleteSession rest sid
    else s :: deleteSession rest sid

/-- Extraction of the signaling session id from a payload, exactly as in
`findOrCreateSession`: the lower-case `sessionid` when the payload is
classified as a standalone join, the camel-case `sessionId` otherwise. -/
def extractSignalingSessionId (user : SignalingSessionPayload) : Option String :=
  if isStandaloneSignalingJoinSession user then user.sessionid else user.sessionId

/-- The construction part of `findOrCreateSession` (the branch taken when the
session is not yet known): derive the secondary room-session id and the actor
identity from the payload shape, resolve the attendee against the roster, and
build the new `Session` record. -/
def createSession (roster : List Participant) (token : String)
    (user : SignalingSessionPayload) (signalingSessionId : String) : Session :=
  if isStandaloneSignalingJoinSession user then
    let actorType := if truthyStr user.userid then
        (if user.federated then ACTOR_TYPE_FEDERATED_USERS else ACTOR_TYPE_USERS)
      else ACTOR_TYPE_GUESTS
    let sessionId := user.roomsessionid
    let attendee := findParticipant roster sessionId user.userid (some actorType)
    { attendeeId := attendee.map (fun a => a.attendeeId), token, signalingSessionId, sessionId }
  else
    let sessionId := if isInternalSignalingSession user then user.sessionId
      else user.nextcloudSessionId
    let attendee := findParticipant roster sessionId user.actorId user.actorType
    { attendeeId := attendee.map (fun a => a.attendeeId), token, signalingSessionId, sessionId }

/-- The `findOrCreateSession` action.  Throws (models `throw new Error`) when
no truthy signaling session id can be extracted; returns the existing record
unchanged when the id is already registered; otherwise resolves and inserts a
new record. -/
def findOrCreateSession (roster : List Participant) (token : String)
    (user : SignalingSessionPayload) (sessions : List Session) :
    Except String (Session × List Session) :=
  match extractSignalingSessionId user with
  | none => .error "Can not define sessionId from the payload"
  | some sid =>
    if sid = "" then .error "Can not define sessionId from the payload"
    else
      match getSession sessions (some sid) with
      | some knownSession => .ok (knownSession, sessions)
      | none =>
        let session := createSession roster token user sid
        .ok (session, setSessionByKey sessions session)

/-- `[...new Set(...)]`: deduplicate keeping the first occurrence. -/
def dedupAdd (l : List String) (x : String) : List String :=
  if x ∈ l then l else l ++ [x]

/-- Deduplicate a list keeping first occurrences (insertion order of a Set). -/
def dedupKeepFirst (l : List String) : List String :=
  l.foldl dedupAdd []

/-- The `updateParticipantJoinedFromStandaloneSignaling` action: no-op when
the participant is gone from the roster; otherwise commit the joined
display name (falling back to the existing one) and the deduplicated union
of the existing session ids with the joining room-session id. -/
def updateParticipantJoinedFromStandaloneSignaling (st : StoreState) (token : String)
    (attendeeId : Nat) (user : SignalingSessionPayload) : StoreState :=
  match getParticipant st.roster attendeeId with
  | none => st
  | some participant =>
    let updatedData : ParticipantUpdatePayload :=
      { attendeeId := some attendeeId
        displayName := some (user.userDisplayname.getD participant.displayName)
        sessionIds := some
          (dedupKeepFirst (participant.sessionIds ++ [user.roomsessionid.getD ""])) }
    commitUpdateParticipant st token attendeeId updatedData

/-- Lookup in the `participantsToUpdate` record (keyed by attendee id). -/
def toUpdateLookup : List (Nat × ParticipantUpdatePayload) → Nat →
    Option ParticipantUpdatePayload
  | [], _ => none
  | (a, u) :: rest, attendeeId =>
    if a = attendeeId then some u else toUpdateLookup rest attendeeId

/-- `participantsToUpdate[attendeeId].sessionIds.push(user.sessionId)`. -/
def pushSessionId : List (Nat × ParticipantUpdatePayload) → Nat → String →
    List (Nat × ParticipantUpdatePayload)
  | [], _, _ => []
  | (a, u) :: rest, attendeeId, sid =>
    if a = attendeeId then
      (a, { u with sessionIds := some (u.sessionIds.getD [] ++ [sid]) }) :: rest
    else (a, u) :: pushSessionId rest attendeeId sid

/-- One iteration of the grouping loop of
`updateParticipantsFromInternalSignaling`: resolve the entry's session, skip
it when the attendee id is falsy, otherwise start or extend that attendee's
update payload. -/
def buildToUpdateStep (sessions : List Session)
    (acc : List (Nat × ParticipantUpdatePayload)) (user : SignalingSessionPayload) :
    List (Nat × ParticipantUpdatePayload) :=
  match getSession sessions user.sessionId, user.sessionId with
  | some session, some usid =>
    match session.attendeeId with
    | some attendeeId =>
      if attendeeId = 0 then acc
      else
        match toUpdateLookup acc attendeeId with
        | none => acc ++ [(attendeeId,
            { attendeeId := some attendeeId
              inCall := some user.inCall
              lastPing := some user.lastPing
              permissions := some user.participantPermissions
              sessionIds := some [usid] })]
        | some _ => pushSessionId acc attendeeId usid
    | none => acc
  | _, _ => acc

/-- The grouping loop of `updateParticipantsFromInternalSignaling`. -/
def buildParticipantsToUpdate (sessions : List Session)
    (users : List SignalingSessionPayload) : List (Nat × ParticipantUpdatePayload) :=
  users.foldl (buildToUpdateStep sessions) []

/-- One iteration of the roster loop of
`updateParticipantsFromInternalSignaling`: participants with a prepared
payload get it committed; participants without one but with live session ids
are set offline (`inCall` cleared, `sessionIds` emptied). -/
def internalRosterStep (toUpdate : List (Nat × ParticipantUpdatePayload))
    (token : String) (st : StoreState) (participant : Participant) : StoreState :=
  match toUpdateLookup toUpdate participant.attendeeId with
  | some u => commitUpdateParticipant st token participant.attendeeId u
  | none =>
    if participant.sessionIds.length ≠ 0 then
      commitUpdateParticipant st token participant.attendeeId
        { attendeeId := some participant.attendeeId
          inCall := some CALL_FLAG_DISCONNECTED
          sessionIds := some [] }
    else st

/-- The `updateParticipantsFromInternalSignaling` action: group the batch by
resolved attendee, then walk the roster snapshot committing grouped updates
and offline updates. -/
def updateParticipantsFromInternalSignaling (st : StoreState) (token : String)
    (users : List SignalingSessionPayload) : StoreState :=
  let participantsToUpdate := buildParticipantsToUpdate st.sessions users
  st.roster.foldl (internalRosterStep participantsToUpdate token) st

/-- The per-user loop of `updateSessions`: resolve or create the session,
collect its id, flag unknown sessions, and dispatch the standalone join
handler (the standalone update dispatch is commented out in the source). -/
def updateSessionsLoop (token : String) : List SignalingSessionPayload →
    StoreState → Bool → List String → Except String (Bool × StoreState × List String)
  | [], st, hasUnknownSessions, currentSessionIds =>
    .ok (hasUnknownSessions, st, currentSessionIds)
  | user :: rest, st, hasUnknownSessions, currentSessionIds =>
    match findOrCreateSession st.roster token user st.sessions with
    | .error e => .error e
    | .ok (session, sessions) =>
      let st1 : StoreState := { st with sessions := sessions }
      let ids := dedupAdd currentSessionIds session.signalingSessionId
      if truthyNat session.attendeeId then
        let st2 :=
          if isStandaloneSignalingJoinSession user then
            updateParticipantJoinedFromStandaloneSignaling st1 token
              (session.attendeeId.getD 0) user
          else st1
        updateSessionsLoop token rest st2 hasUnknownSessions ids
      else
        updateSessionsLoop token rest st1 true ids

/-- The pruning loop at the end of `updateSessions` for internal batches:
delete every registered session absent from the batch's id set. -/
def pruneAbsentSessions : List Session → List String → List Session
  | [], _ => []
  | s :: rest, ids =>
    if s.signalingSessionId ∈ ids then s :: pruneAbsentSessions rest ids
    else pruneAbsentSessions rest ids

/-- The `updateSessions` action.  Note that on an empty batch the source
evaluates `roomId in users[0]` with `users[0]` undefined, which raises a
TypeError; this is modelled by the error on the empty list. -/
def updateSessions (st : StoreState) (token : String)
    (users : List SignalingSessionPayload) : Except String (Bool × StoreState) :=
  match updateSessionsLoop token users st false [] with
  | .error e => .error e
  | .ok (hasUnknownSessions, st1, currentSessionIds) =>
    match users with
    | [] => .error "TypeError: cannot read roomId of an undefined first element"
    | firstUser :: _ =>
      if isInternalSignalingSession firstUser then
        let st2 := updateParticipantsFromInternalSignaling st1 token users
        .ok (hasUnknownSessions,
          { st2 with sessions := pruneAbsentSessions st2.sessions currentSessionIds })
      else
        .ok (hasUnknownSessions, st1)

/-- `participant.sessionIds.filter((id) => id !== sessionId)`. -/
def removeAllEq : List String → String → List String
  | [], _ => []
  | i :: rest, sid =>
    if i = sid then removeAllEq rest sid else i :: removeAllEq rest sid

/-- The loop body of `updateParticipantsLeftFromStandaloneSignaling`: skip
silently when the session or its attendee or the participant cannot be
resolved; otherwise drop the signaling session id from the participant's
list and clear `inCall` exactly when the list became empty. -/
def updateParticipantLeftOne (st : StoreState) (token : String) (sessionId : String) :
    StoreState :=
  let attendeeId := (getSession st.sessions (some sessionId)).bind (fun s => s.attendeeId)
  if truthyNat attendeeId then
    match getParticipant st.roster (attendeeId.getD 0) with
    | none => st
    | some participant =>
      let sessionIds := removeAllEq participant.sessionIds sessionId
      commitUpdateParticipant st token (attendeeId.getD 0)
        { sessionIds := some sessionIds
          inCall := some (if sessionIds.length ≠ 0 then participant.inCall
            else CALL_FLAG_DISCONNECTED) }
  else st

/-- The `updateParticipantsLeftFromStandaloneSignaling` action. -/
def updateParticipantsLeftFromStandaloneSignaling (st : StoreState) (token : String)
    (sessionIdsLeft : List String) : StoreState :=
  sessionIdsLeft.foldl (fun acc sid => updateParticipantLeftOne acc token sid) st

/-- The deletion loop of `updateSessionsLeft`. -/
def deleteSessionsMany (sessions : List Session) (sessionIds : List String) :
    List Session :=
  sessionIds.foldl deleteSession sessions

/-- The `updateSessionsLeft` action: participant-side processing first, then
unconditional deletion of every named session. -/
def updateSessionsLeft (st : StoreState) (token : String) (sessionIds : List String) :
    StoreState :=
  let st1 := updateParticipantsLeftFromStandaloneSignaling st token sessionIds
  { st1 with sessions := deleteSessionsMany st1.sessions sessionIds }

/-- One roster iteration of the standalone-disconnect bulk operation. -/
def disconnectedStep (token : String) (st : StoreState) (p : Participant) : StoreState :=
  if p.sessionIds.length ≠ 0 then
    commitUpdateParticipant st token p.attendeeId { inCall := some CALL_FLAG_DISCONNECTED }
  else st

/-- Modelled from the spec: `updateParticipantsDisconnectedFromStandaloneSignaling`
is invoked from useGetParticipants.js and exercised by the store's test suite
but its definition is missing from the extracted store source.  Per the spec
(section 4.3) it commands `inCall` cleared for every participant currently
known to have any active session, leaving `sessionIds` untouched. -/
def updateParticipantsDisconnectedFromStandaloneSignaling (st : StoreState)
    (token : String) : StoreState :=
  st.roster.foldl (disconnectedStep token) st

/-- Shape of an internal-signaling snapshot entry (spec section 3): `roomId`
present, no lower-case `sessionid`, and a usable `sessionId`. -/
def isInternalShape (u : SignalingSessionPayload) : Bool :=
  u.roomId.isSome && u.sessionid.isNone && truthyStr u.sessionId

/-- Shape of a standalone join event (spec section 3): lower-case `sessionid`
present and usable, a room-session id, and neither `roomId` nor `sessionId`. -/
def isJoinShape (u : SignalingSessionPayload) : Bool :=
  u.roomId.isNone && truthyStr u.sessionid && u.sessionId.isNone && u.roomsessionid.isSome

/-- Shape of a standalone update event (spec section 3): a usable camel-case
`sessionId` and neither `roomId` nor lower-case `sessionid`. -/
def isUpdateShape (u : SignalingSessionPayload) : Bool :=
  u.roomId.isNone && u.sessionid.isNone && truthyStr u.sessionId

/-- Number of occurrences of an id in a list of session ids. -/
def countEq : List String → String → Nat
  | [], _ => 0
  | i :: rest, sid => if i = sid then countEq rest sid + 1 else countEq rest sid

/-- Whether a batch entry resolves (through the registry lookup performed by
the grouping loop of `updateParticipantsFromInternalSignaling`) to the given
attendee: its registered session carries that truthy attendee id. -/
def resolvesTo (sessions : List Session) (u : SignalingSessionPayload) (a : Nat) : Bool :=
  match getSession sessions u.sessionId with
  | some s => truthyNat s.attendeeId && decide (s.attendeeId = some a)
  | none => false

/-- The command emitted for one roster participant by the roster loop of
`updateParticipantsFromInternalSignaling` (`none` when the participant is
left alone): the prepared grouped payload when one exists, the offline
update when the participant still has session ids, nothing otherwise. -/
def rosterCmd (toUpdate : List (Nat × ParticipantUpdatePayload)) (token : String)
    (p : Participant) : Option Command :=
  match toUpdateLookup toUpdate p.attendeeId with
  | some u => some ⟨token, p.attendeeId, u⟩
  | none =>
    if p.sessionIds.length ≠ 0 then
      some ⟨token, p.attendeeId,
        { attendeeId := some p.attendeeId, inCall := some CALL_FLAG_DISCONNECTED,
          sessionIds := some [] }⟩
    else none

/-- The signaling session ids, in batch order, of the entries of a batch
that resolve to the given attendee. -/
def groupSessionIds (sessions : List Session) (users : List SignalingSessionPayload)
    (a : Nat) : List String :=
  users.filterMap (fun u => if resolvesTo sessions u a = true then u.sessionId else none)

/-- Registry well-formedness: one session per signaling session id. -/
abbrev sessionKeysNodup (sessions : List Session) : Prop :=
  (sessions.map (fun s => s.signalingSessionId)).Nodup

/-- Roster well-formedness (spec section 3: participants are keyed by
`attendeeId`, a truthy identifier). -/
abbrev rosterWF (roster : List Participant) : Prop :=
  (roster.map (fun p => p.attendeeId)).Nodup ∧ ∀ p ∈ roster, p.attendeeId ≠ 0

/-- Registry value well-formedness: a resolved attendee id is truthy. -/
abbrev sessionValuesWF (sessions : List Session) : Prop :=
  ∀ s ∈ sessions, s.attendeeId ≠ some 0

/-- The command committed for one participant by the standalone-disconnect
bulk operation. -/
def discCmd (token : String) (p : Participant) : Command :=
  ⟨token, p.attendeeId, { inCall := some CALL_FLAG_DISCONNECTED }⟩

/-- The optional command emitted for one roster participant by the
standalone-disconnect bulk operation. -/
def discCmdFor (token : String) (p : Participant) : Option Command :=
  if p.sessionIds.length ≠ 0 then some (discCmd token p) else none

/-! Concrete fixtures, mirroring the scenarios of the store's test suite. -/

/-- Roster fixture: a user with one device connected. -/
def wAlice : Participant := ⟨1, "alice", "users", "Alice", 0, 11, 7, 1, ["s1"]⟩

/-- Roster fixture: a user with one device connected. -/
def wBob : Participant := ⟨2, "bob", "users", "Bob", 0, 11, 7, 3, ["s2"]⟩

/-- Roster fixture: a user whose device is not part of the next snapshot. -/
def wCarol : Participant := ⟨3, "carol", "users", "Carol", 0, 11, 7, 3, ["s9"]⟩

/-- Roster fixture. -/
def wRoster : List Participant := [wAlice, wBob, wCarol]

/-- A store state with an empty registry over the fixture roster. -/
def wState : StoreState := ⟨[], wRoster, []⟩

/-- Internal snapshot entry for Alice's device. -/
def wInternalA : SignalingSessionPayload :=
  { roomId := some 1, sessionId := some "s1", actorId := some "alice",
    actorType := some "users", inCall := 7, lastPing := 99, participantPermissions := 254 }

/-- Internal snapshot entry for Bob's first device. -/
def wInternalB1 : SignalingSessionPayload :=
  { roomId := some 1, sessionId := some "s2", actorId := some "bob",
    actorType := some "users", inCall := 7, lastPing := 99, participantPermissions := 254 }

/-- Internal snapshot entry for Bob's second device. -/
def wInternalB2 : SignalingSessionPayload :=
  { roomId := some 1, sessionId := some "s3", actorId := some "bob",
    actorType := some "users", inCall := 7, lastPing := 99, participantPermissions := 254 }

/-- Internal snapshot entry for an actor absent from the roster. -/
def wInternalD : SignalingSessionPayload :=
  { roomId := some 1, sessionId := some "s4", actorId := some "dave",
    actorType := some "users", inCall := 0, lastPing := 99, participantPermissions := 254 }

/-- An internal snapshot batch: one device of Alice, two of Bob. -/
def wInternalBatch : List SignalingSessionPayload := [wInternalA, wInternalB1, wInternalB2]

/-- Result of reconciling the internal snapshot batch. -/
def wRunInternal : Except String (Bool × StoreState) :=
  updateSessions wState "room" wInternalBatch

/-- The state after reconciling the internal snapshot batch. -/
def wStInternal : StoreState :=
  match wRunInternal with
  | .ok (_, s) => s
  | .error _ => wState

/-- Result of reconciling a batch containing an unknown actor. -/
def wRunUnknown : Except String (Bool × StoreState) :=
  updateSessions wState "room" [wInternalA, wInternalD]

/-- The state after reconciling the batch with an unknown actor. -/
def wStUnknown : StoreState :=
  match wRunUnknown with
  | .ok (_, s) => s
  | .error _ => wState

/-- A registered standalone session of Alice. -/
def wSessionAlice : Session := ⟨some 1, "room", "s1", some "s1"⟩

/-- A state with Alice's session registered over the fixture roster. -/
def wStateAlice : StoreState := ⟨[wSessionAlice], wRoster, []⟩

/-- A standalone update event for Alice's session. -/
def wUpdatePayload : SignalingSessionPayload :=
  { sessionId := some "s1", userId := some "alice", inCall := 7, participantType := 1,
    lastPing := 123, participantPermissions := 254 }

/-- A session resolved to attendee 7, who is absent from the roster. -/
def wSessionGone : Session := ⟨some 7, "room", "s1", some "s1"⟩

/-- A state whose registry knows attendee 7 but whose roster is empty. -/
def wStateGone : StoreState := ⟨[wSessionGone], [], []⟩

/-- An internal snapshot entry for the session resolved to attendee 7. -/
def wInternalGone : SignalingSessionPayload :=
  { roomId := some 1, sessionId := some "s1", actorId := some "gone",
    actorType := some "users", inCall := 7, lastPing := 99, participantPermissions := 254 }

/-- A session of Bob whose signaling session id differs from its room-session
id (standalone signaling uses distinct namespaces for the two). -/
def wSessionSplit : Session := ⟨some 2, "room", "sig7", some "s2"⟩

/-- A state registering the split-id session over the fixture roster. -/
def wStateSplit : StoreState := ⟨[wSessionSplit], wRoster, []⟩

/-- A payload with no session id field at all. -/
def wNoIdPayload : SignalingSessionPayload :=
  { userId := some "alice", inCall := 7 }

/-! Helper lemmas. -/

theorem truthyStr_eq_true_iff (o : Option String) :
    truthyStr o = true ↔ ∃ s, o = some s ∧ s ≠ "" := by
  cases o <;> simp [truthyStr]

theorem truthyNat_eq_false_iff (o : Option Nat) :
    truthyNat o = false ↔ o = none ∨ o = some 0 := by
  cases o with
  | none => simp [truthyNat]
  | some n => simp [truthyNat]

theorem applyUpdate_map_sessionIds_of_none (a : Nat) (u : ParticipantUpdatePayload)
    (hu : u.sessionIds = none) (roster : List Participant) :
    (applyUpdate roster a u).map (fun p => p.sessionIds) =
      roster.map (fun p => p.sessionIds) := by
  induction roster with
  | nil => rfl
  | cons p rest ih =>
    by_cases h : p.attendeeId = a <;> simp [applyUpdate, h, ih, mergeParticipant, hu]

theorem disc_fold_props (token : String) (ps : List Participant) : ∀ st : StoreState,
    (ps.foldl (disconnectedStep token) st).trace =
      st.trace ++ ps.filterMap (discCmdFor token) ∧
    (ps.foldl (disconnectedStep token) st).sessions = st.sessions ∧
    ((ps.foldl (disconnectedStep token) st).roster).map (fun p => p.sessionIds) =
      st.roster.map (fun p => p.sessionIds) := by
  induction ps with
  | nil => intro st; simp
  | cons p rest ih =>
    intro st
    obtain ⟨ht, hs, hr⟩ := ih (disconnectedStep token st p)
    by_cases h : p.sessionIds.length ≠ 0
    · have hstep : disconnectedStep token st p =
          commitUpdateParticipant st token p.attendeeId { inCall := some CALL_FLAG_DISCONNECTED } := by
        simp [disconnectedStep, h]
      have hf : discCmdFor token p = some (discCmd token p) := by
        simp [discCmdFor, h]
      refine ⟨?_, ?_, ?_⟩
      · rw [List.foldl_cons, ht, hstep, List.filterMap_cons, hf]
        simp [commitUpdateParticipant, discCmd]
      · rw [List.foldl_cons, hs, hstep]; rfl
      · rw [List.foldl_cons, hr, hstep]
        exact applyUpdate_map_sessionIds_of_none p.attendeeId _ rfl st.roster
    · have hstep : disconnectedStep token st p = st := by
        simp [disconnectedStep, h]
      have hf : discCmdFor token p = none := by
        simp [discCmdFor, h]
      refine ⟨?_, ?_, ?_⟩
      · rw [List.foldl_cons, ht, hstep, List.filterMap_cons, hf]
      · rw [List.foldl_cons, hs, hstep]
      · rw [List.foldl_cons, hr, hstep]

theorem deleteSession_eq_filter (l : List Session) (sid : String) :
    deleteSession l sid = l.filter (fun s => decide (s.signalingSessionId ≠ sid)) := by
  induction l with
  | nil => rfl
  | cons s rest ih =>
    by_cases h : s.signalingSessionId = sid <;> simp [deleteSession, h, ih, List.filter_cons]

theorem deleteSessionsMany_eq_filter (ids : List String) : ∀ l : List Session,
    deleteSessionsMany l ids = l.filter (fun s => decide (s.signalingSessionId ∉ ids)) := by
  induction ids with
  | nil => intro l; simp [deleteSessionsMany]
  | cons i rest ih =>
    intro l
    have h1 : deleteSessionsMany l (i :: rest) = deleteSessionsMany (deleteSession l i) rest := rfl
    rw [h1, ih, deleteSession_eq_filter, List.filter_filter]
    apply List.filter_congr
    intro s _
    by_cases h2 : s.signalingSessionId = i <;> by_cases h3 : s.signalingSessionId ∈ rest <;>
      simp [h2, h3]

theorem removeAllEq_length_add_count (l : List String) (sid : String) :
    (removeAllEq l sid).length + countEq l sid = l.length := by
  induction l with
  | nil => rfl
  | cons i rest ih =>
    by_cases h : i = sid <;> simp [removeAllEq, countEq, h] <;> omega

theorem removeAllEq_of_not_mem {l : List String} {sid : String} (h : sid ∉ l) :
    removeAllEq l sid = l := by
  induction l with
  | nil => rfl
  | cons i rest ih =>
    simp only [List.mem_cons, not_or] at h
    have hne : ¬ i = sid := fun he => h.1 he.symm
    simp [removeAllEq, hne, ih h.2]

theorem updateParticipantLeftOne_sessions (st : StoreState) (token : String) (sid : String) :
    (updateParticipantLeftOne st token sid).sessions = st.sessions := by
  unfold updateParticipantLeftOne
  dsimp only
  split
  · split <;> rfl
  · rfl

theorem leftFold_sessions (token : String) (ids : List String) : ∀ st : StoreState,
    (updateParticipantsLeftFromStandaloneSignaling st token ids).sessions = st.sessions := by
  induction ids with
  | nil => intro st; rfl
  | cons i rest ih =>
    intro st
    have h1 : updateParticipantsLeftFromStandaloneSignaling st token (i :: rest) =
        updateParticipantsLeftFromStandaloneSignaling (updateParticipantLeftOne st token i)
          token rest := rfl
    rw [h1, ih, updateParticipantLeftOne_sessions]

theorem updateSessionsLeft_sessions_filter (st : StoreState) (token : String)
    (ids : List String) :
    (updateSessionsLeft st token ids).sessions =
      st.sessions.filter (fun s => decide (s.signalingSessionId ∉ ids)) := by
  show (deleteSessionsMany
    (updateParticipantsLeftFromStandaloneSignaling st token ids).sessions ids) = _
  rw [leftFold_sessions, deleteSessionsMany_eq_filter]

theorem findSessionByKey_none (sid : String) {l : List Session}
    (h : ∀ s ∈ l, s.signalingSessionId ≠ sid) : findSessionByKey l sid = none := by
  induction l with
  | nil => rfl
  | cons s rest ih =>
    simp only [List.mem_cons] at h
    simp [findSessionByKey, h s (Or.inl rfl), ih fun q hq => h q (Or.inr hq)]

theorem applyUpdate_of_not_mem (a : Nat) (u : ParticipantUpdatePayload) :
    ∀ roster : List Participant, a ∉ roster.map (fun q => q.attendeeId) →
    applyUpdate roster a u = roster := by
  intro roster
  induction roster with
  | nil => intro _; rfl
  | cons q rest ih =>
    intro h
    simp only [List.map_cons, List.mem_cons, not_or] at h
    have hne : ¬ q.attendeeId = a := fun he => h.1 he.symm
    simp [applyUpdate, hne, ih h.2]

theorem applyUpdate_map_sessionIds_keyed (a : Nat) (u : ParticipantUpdatePayload) :
    ∀ (roster : List Participant) (p : Participant),
    (roster.map (fun q => q.attendeeId)).Nodup →
    getParticipant roster a = some p →
    u.sessionIds = some p.sessionIds →
    (applyUpdate roster a u).map (fun q => q.sessionIds) =
      roster.map (fun q => q.sessionIds) := by
  intro roster
  induction roster with
  | nil => intro p _ hget; simp [getParticipant] at hget
  | cons q rest ih =>
    intro p hnodup hget hu
    simp only [List.map_cons, List.nodup_cons] at hnodup
    by_cases h : q.attendeeId = a
    · have hq : p = q := by
        simp only [getParticipant, if_pos h] at hget
        exact (Option.some.injEq _ _ ▸ hget).symm
      have hmem : a ∉ rest.map (fun q => q.attendeeId) := h ▸ hnodup.1
      have hmerge : (mergeParticipant q u).sessionIds = q.sessionIds := by
        simp [mergeParticipant, hu, hq]
      simp [applyUpdate, h, applyUpdate_of_not_mem a u rest hmem, hmerge]
    · have hget2 : getParticipant rest a = some p := by
        simpa [getParticipant, h] using hget
      simp [applyUpdate, h, ih p hnodup.2 hget2 hu]

theorem findSessionByKey_mem {l : List Session} {sid : String} {s : Session}
    (h : findSessionByKey l sid = some s) : s ∈ l ∧ s.signalingSessionId = sid := by
  induction l with
  | nil => simp [findSessionByKey] at h
  | cons q rest ih =>
    by_cases hq : q.signalingSessionId = sid
    · simp only [findSessionByKey, if_pos hq] at h
      injection h with h2
      subst h2
      exact ⟨List.mem_cons_self _ _, hq⟩
    · simp only [findSessionByKey, if_neg hq] at h
      obtain ⟨h1, h2⟩ := ih h
      exact ⟨List.mem_cons_of_mem q h1, h2⟩

theorem findSessionByKey_none_iff {l : List Session} {sid : String} :
    findSessionByKey l sid = none ↔ ∀ s ∈ l, s.signalingSessionId ≠ sid := by
  induction l with
  | nil => simp [findSessionByKey]
  | cons q rest ih =>
    by_cases hq : q.signalingSessionId = sid <;>
      simp [findSessionByKey, hq, ih]

theorem findSessionByKey_append_left {l l2 : List Session} {sid : String} {s : Session}
    (h : findSessionByKey l sid = some s) :
    findSessionByKey (l ++ l2) sid = some s := by
  induction l with
  | nil => simp [findSessionByKey] at h
  | cons q rest ih =>
    by_cases hq : q.signalingSessionId = sid
    · simp only [findSessionByKey, if_pos hq] at h ⊢
      exact h
    · simp only [List.cons_append, findSessionByKey, if_neg hq] at h ⊢
      exact ih h

theorem findSessionByKey_append_of_none {l : List Session} {sid : String}
    (h : findSessionByKey l sid = none) (l2 : List Session) :
    findSessionByKey (l ++ l2) sid = findSessionByKey l2 sid := by
  induction l with
  | nil => rfl
  | cons q rest ih =>
    by_cases hq : q.signalingSessionId = sid
    · simp only [findSessionByKey, if_pos hq] at h
      exact Option.noConfusion h
    · simp only [findSessionByKey, if_neg hq] at h
      simp only [List.cons_append, findSessionByKey, if_neg hq]
      exact ih h

theorem setSessionByKey_of_absent {l : List Session} {s : Session}
    (h : findSessionByKey l s.signalingSessionId = none) :
    setSessionByKey l s = l ++ [s] := by
  induction l with
  | nil => rfl
  | cons q rest ih =>
    by_cases hq : q.signalingSessionId = s.signalingSessionId
    · simp only [findSessionByKey, if_pos hq] at h
      exact Option.noConfusion h
    · simp only [findSessionByKey, if_neg hq] at h
      simp [setSessionByKey, hq, ih h]

theorem sessionKeysNodup_append_new {l : List Session} {s : Session}
    (hn : sessionKeysNodup l) (h : findSessionByKey l s.signalingSessionId = none) :
    sessionKeysNodup (l ++ [s]) := by
  unfold sessionKeysNodup at *
  rw [List.map_append, List.nodup_append]
  refine ⟨hn, List.nodup_singleton _, ?_⟩
  intro x hx hy
  simp only [List.map_cons, List.map_nil, List.mem_singleton] at hy
  rw [List.mem_map] at hx
  obtain ⟨q, hq, hkey⟩ := hx
  rw [findSessionByKey_none_iff] at h
  exact h q hq (hkey.trans hy)

theorem findParticipant_mem : ∀ {roster : List Participant} {a : Option String}
    {b : Option String} {c : Option String} {p : Participant},
    findParticipant roster a b c = some p → p ∈ roster := by
  intro roster
  induction roster with
  | nil => intro a b c p h; simp [findParticipant] at h
  | cons q rest ih =>
    intro a b c p h
    by_cases hq : findParticipantMatch q a b c = true
    · simp only [findParticipant, if_pos hq] at h
      cases h
      exact List.mem_cons_self q rest
    · simp only [findParticipant, if_neg hq] at h
      exact List.mem_cons_of_mem q (ih h)

theorem createSession_key (roster : List Participant) (token : String)
    (user : SignalingSessionPayload) (sid : String) :
    (createSession roster token user sid).signalingSessionId = sid := by
  unfold createSession
  split <;> rfl

theorem attendee_map_ne {o : Option Participant}
    (ho : ∀ p, o = some p → p.attendeeId ≠ 0) :
    o.map (fun a => a.attendeeId) ≠ some 0 := by
  cases o with
  | none => simp
  | some p => simpa using ho p rfl

theorem createSession_attendee_wf (roster : List Participant) (token : String)
    (user : SignalingSessionPayload) (sid : String)
    (hros : ∀ p ∈ roster, p.attendeeId ≠ 0) :
    (createSession roster token user sid).attendeeId ≠ some 0 := by
  unfold createSession
  split <;>
    exact attendee_map_ne (fun p hp => hros p (findParticipant_mem hp))

theorem findOrCreateSession_of_known {user : SignalingSessionPayload} {sid : String}
    {sessions : List Session} {s : Session}
    (roster : List Participant) (token : String)
    (hex : extractSignalingSessionId user = some sid)
    (hget : getSession sessions (some sid) = some s) :
    findOrCreateSession roster token user sessions = .ok (s, sessions) := by
  have hsid : ¬ sid = "" := by
    intro h
    rw [h] at hget
    simp [getSession] at hget
  unfold findOrCreateSession
  rw [hex]
  simp [hsid, hget]

theorem findOrCreateSession_of_new {user : SignalingSessionPayload} {sid : String}
    {sessions : List Session}
    (roster : List Participant) (token : String)
    (hex : extractSignalingSessionId user = some sid) (hsid : sid ≠ "")
    (hget : getSession sessions (some sid) = none) :
    findOrCreateSession roster token user sessions =
      .ok (createSession roster token user sid,
        sessions ++ [createSession roster token user sid]) := by
  have hfind : findSessionByKey sessions sid = none := by
    simpa [getSession, hsid] using hget
  have habsent : findSessionByKey sessions
      (createSession roster token user sid).signalingSessionId = none := by
    rw [createSession_key]
    exact hfind
  unfold findOrCreateSession
  rw [hex]
  simp [hsid, getSession, hfind, setSessionByKey_of_absent habsent]

theorem findOrCreateSession_error_iff (roster : List Participant) (token : String)
    (user : SignalingSessionPayload) (sessions : List Session) :
    (∃ e, findOrCreateSession roster token user sessions = .error e) ↔
      truthyStr (extractSignalingSessionId user) = false := by
  constructor
  · intro ⟨e, he⟩
    by_contra h
    rw [Bool.not_eq_false, truthyStr_eq_true_iff] at h
    obtain ⟨sid, hex, hsid⟩ := h
    cases hget : getSession sessions (some sid) with
    | some s => rw [findOrCreateSession_of_known roster token hex hget] at he; cases he
    | none => rw [findOrCreateSession_of_new roster token hex hsid hget] at he; cases he
  · intro h
    cases hex : extractSignalingSessionId user with
    | none =>
      refine ⟨"Can not define sessionId from the payload", ?_⟩
      simp [findOrCreateSession, hex]
    | some sid =>
      have hsid : sid = "" := by
        rw [hex] at h
        simpa [truthyStr] using h
      refine ⟨"Can not define sessionId from the payload", ?_⟩
      simp [findOrCreateSession, hex, hsid]

theorem updateParticipantJoined_sessions (st : StoreState) (token : String)
    (a : Nat) (user : SignalingSessionPayload) :
    (updateParticipantJoinedFromStandaloneSignaling st token a user).sessions =
      st.sessions := by
  unfold updateParticipantJoinedFromStandaloneSignaling
  split <;> rfl

theorem applyUpdate_map_attendeeIds (a : Nat) (u : ParticipantUpdatePayload) :
    ∀ roster : List Participant,
    (applyUpdate roster a u).map (fun p => p.attendeeId) =
      roster.map (fun p => p.attendeeId) := by
  intro roster
  induction roster with
  | nil => rfl
  | cons q rest ih =>
    by_cases h : q.attendeeId = a <;> simp [applyUpdate, h, ih, mergeParticipant]

theorem updateParticipantJoined_roster_attendeeIds (st : StoreState) (token : String)
    (a : Nat) (user : SignalingSessionPayload) :
    ((updateParticipantJoinedFromStandaloneSignaling st token a user).roster).map
        (fun p => p.attendeeId) = st.roster.map (fun p => p.attendeeId) := by
  unfold updateParticipantJoinedFromStandaloneSignaling
  split
  · rfl
  · exact applyUpdate_map_attendeeIds a _ st.roster

theorem dedupAdd_mem (ids : List String) (x y : String) :
    y ∈ dedupAdd ids x ↔ y ∈ ids ∨ y = x := by
  unfold dedupAdd
  by_cases h : x ∈ ids
  · simp only [if_pos h]
    constructor
    · exact Or.inl
    · rintro (hy | rfl)
      · exact hy
      · exact h
  · simp [if_neg h]

theorem updateSessionsLoop_cons (token : String) (u : SignalingSessionPayload)
    (rest : List SignalingSessionPayload) (st : StoreState) (flag : Bool) (ids : List String)
    (hu : truthyStr (extractSignalingSessionId u) = true) :
    ∃ (s : Session) (st1 : StoreState) (sid : String),
      extractSignalingSessionId u = some sid ∧
      updateSessionsLoop token (u :: rest) st flag ids =
        updateSessionsLoop token rest st1 (flag || !truthyNat s.attendeeId)
          (dedupAdd ids sid) ∧
      (st1.sessions = st.sessions ∨
        (findSessionByKey st.sessions sid = none ∧ st1.sessions = st.sessions ++ [s])) ∧
      s.signalingSessionId = sid ∧
      (s ∈ st.sessions ∨ s = createSession st.roster token u sid) ∧
      getSession st1.sessions (some sid) = some s ∧
      st1.roster.map (fun p => p.attendeeId) = st.roster.map (fun p => p.attendeeId) ∧
      (isStandaloneSignalingJoinSession u = false →
        st1.roster = st.roster ∧ st1.trace = st.trace) := by
  obtain ⟨sid, hex, hne⟩ := (truthyStr_eq_true_iff _).mp hu
  have heta : ({ st with sessions := st.sessions } : StoreState) = st := rfl
  cases hget : getSession st.sessions (some sid) with
  | some s =>
    obtain ⟨hmem, hkey⟩ := findSessionByKey_mem (by simpa [getSession, hne] using hget)
    have hfocs := findOrCreateSession_of_known st.roster token hex hget
    by_cases htr : truthyNat s.attendeeId = true
    · by_cases hj : isStandaloneSignalingJoinSession u = true
      · refine ⟨s, updateParticipantJoinedFromStandaloneSignaling st token
          (s.attendeeId.getD 0) u, sid, hex, ?_, ?_, hkey, Or.inl hmem, ?_, ?_, ?_⟩
        · simp only [updateSessionsLoop, hfocs, htr, hj, hkey, heta, if_pos, if_true,
            Bool.not_true, Bool.or_false]
        · exact Or.inl (updateParticipantJoined_sessions st token _ u)
        · rw [updateParticipantJoined_sessions st token _ u]
          exact hget
        · exact updateParticipantJoined_roster_attendeeIds st token _ u
        · intro hjf
          rw [hjf] at hj
          cases hj
      · have hjf : isStandaloneSignalingJoinSession u = false := by
          simpa using hj
        refine ⟨s, st, sid, hex, ?_, Or.inl rfl, hkey, Or.inl hmem, hget, rfl,
          fun _ => ⟨rfl, rfl⟩⟩
        simp only [updateSessionsLoop, hfocs, htr, hjf, hkey, heta, if_true,
          Bool.false_eq_true, if_false, Bool.not_true, Bool.or_false]
    · have htrf : truthyNat s.attendeeId = false := by simpa using htr
      refine ⟨s, st, sid, hex, ?_, Or.inl rfl, hkey, Or.inl hmem, hget, rfl,
        fun _ => ⟨rfl, rfl⟩⟩
      simp only [updateSessionsLoop, hfocs, htrf, hkey, heta, Bool.false_eq_true, if_false,
        Bool.not_false, Bool.or_true]
  | none =>
    have hfindnone : findSessionByKey st.sessions sid = none := by
      simpa [getSession, hne] using hget
    have hfocs := findOrCreateSession_of_new st.roster token hex hne hget
    set c := createSession st.roster token u sid with hc
    have hckey : c.signalingSessionId = sid := createSession_key st.roster token u sid
    have hgetc : getSession (st.sessions ++ [c]) (some sid) = some c := by
      simp only [getSession, if_neg hne]
      rw [findSessionByKey_append_of_none hfindnone]
      simp [findSessionByKey, hckey]
    have heta2 : ({ st with sessions := st.sessions ++ [c] } : StoreState).sessions =
        st.sessions ++ [c] := rfl
    by_cases htr : truthyNat c.attendeeId = true
    · by_cases hj : isStandaloneSignalingJoinSession u = true
      · refine ⟨c, updateParticipantJoinedFromStandaloneSignaling
          { st with sessions := st.sessions ++ [c] } token (c.attendeeId.getD 0) u, sid,
          hex, ?_, ?_, hckey, Or.inr rfl, ?_, ?_, ?_⟩
        · simp only [updateSessionsLoop, hfocs, htr, hj, hckey, if_pos, if_true,
            Bool.not_true, Bool.or_false]
        · rw [updateParticipantJoined_sessions]
          exact Or.inr ⟨hfindnone, rfl⟩
        · rw [updateParticipantJoined_sessions]
          exact hgetc
        · rw [updateParticipantJoined_roster_attendeeIds]
        · intro hjf
          rw [hjf] at hj
          cases hj
      · have hjf : isStandaloneSignalingJoinSession u = false := by
          simpa using hj
        refine ⟨c, { st with sessions := st.sessions ++ [c] }, sid, hex, ?_,
          Or.inr ⟨hfindnone, rfl⟩, hckey, Or.inr rfl, hgetc, rfl, fun _ => ⟨rfl, rfl⟩⟩
        simp only [updateSessionsLoop, hfocs, htr, hjf, hckey, if_true,
          Bool.false_eq_true, if_false, Bool.not_true, Bool.or_false]
    · have htrf : truthyNat c.attendeeId = false := by simpa using htr
      refine ⟨c, { st with sessions := st.sessions ++ [c] }, sid, hex, ?_,
        Or.inr ⟨hfindnone, rfl⟩, hckey, Or.inr rfl, hgetc, rfl, fun _ => ⟨rfl, rfl⟩⟩
      simp only [updateSessionsLoop, hfocs, htrf, hckey, Bool.false_eq_true, if_false,
        Bool.not_false, Bool.or_true]

theorem getSession_append_left {l l2 : List Session} {sid : String} {s : Session}
    (h : getSession l (some sid) = some s) :
    getSession (l ++ l2) (some sid) = some s := by
  by_cases hne : sid = ""
  · simp [getSession, hne] at h
  · simp only [getSession, if_neg hne] at h ⊢
    exact findSessionByKey_append_left h

theorem roster_nonzero_of_map_eq {r1 r2 : List Participant}
    (h : r2.map (fun p => p.attendeeId) = r1.map (fun p => p.attendeeId))
    (h1 : ∀ p ∈ r1, p.attendeeId ≠ 0) : ∀ p ∈ r2, p.attendeeId ≠ 0 := by
  intro p hp
  have : p.attendeeId ∈ r1.map (fun p => p.attendeeId) := by
    rw [← h]
    exact List.mem_map_of_mem _ hp
  rw [List.mem_map] at this
  obtain ⟨q, hq, hqe⟩ := this
  rw [← hqe]
  exact h1 q hq

theorem updateSessionsLoop_props (token : String) : ∀ (users : List SignalingSessionPayload)
    (st : StoreState) (flag : Bool) (ids : List String),
    (∀ u ∈ users, truthyStr (extractSignalingSessionId u) = true) →
    sessionKeysNodup st.sessions →
    (∀ p ∈ st.roster, p.attendeeId ≠ 0) →
    sessionValuesWF st.sessions →
    ∃ flag2 st2 ids2,
      updateSessionsLoop token users st flag ids = .ok (flag2, st2, ids2) ∧
      (∃ created, st2.sessions = st.sessions ++ created) ∧
      sessionKeysNodup st2.sessions ∧
      sessionValuesWF st2.sessions ∧
      st2.roster.map (fun p => p.attendeeId) = st.roster.map (fun p => p.attendeeId) ∧
      (∀ x, x ∈ ids2 ↔ x ∈ ids ∨ ∃ u ∈ users, extractSignalingSessionId u = some x) ∧
      ((∀ u ∈ users, isStandaloneSignalingJoinSession u = false) →
        st2.roster = st.roster ∧ st2.trace = st.trace) ∧
      (∀ u ∈ users, ∃ s, getSession st2.sessions (extractSignalingSessionId u) = some s) ∧
      (flag2 = true ↔ flag = true ∨ ∃ u ∈ users, ∃ s,
        getSession st2.sessions (extractSignalingSessionId u) = some s ∧
        truthyNat s.attendeeId = false) := by
  intro users
  induction users with
  | nil =>
    intro st flag ids _ hkeys _ hvals
    refine ⟨flag, st, ids, rfl, ⟨[], (List.append_nil _).symm⟩, hkeys, hvals, rfl,
      fun x => by simp, fun _ => ⟨rfl, rfl⟩, by simp, by simp⟩
  | cons u rest ih =>
    intro st flag ids hex hkeys hros hvals
    obtain ⟨s, st1, sid, hexu, hloopeq, hsess1, hkey, hsrc, hget1, hrosmap1, hnojoin1⟩ :=
      updateSessionsLoop_cons token u rest st flag ids (hex u (List.mem_cons_self u rest))
    have hkeys1 : sessionKeysNodup st1.sessions := by
      rcases hsess1 with h1 | ⟨habs, h1⟩
      · rw [h1]; exact hkeys
      · rw [h1]
        exact sessionKeysNodup_append_new hkeys (hkey.symm ▸ habs)
    have hvals1 : sessionValuesWF st1.sessions := by
      rcases hsess1 with h1 | ⟨_, h1⟩ <;> rw [h1]
      · exact hvals
      · intro q hq
        rcases List.mem_append.mp hq with hq1 | hq2
        · exact hvals q hq1
        · rw [List.mem_singleton] at hq2
          subst hq2
          rcases hsrc with hq3 | hq3
          · exact hvals q hq3
          · rw [hq3]
            exact createSession_attendee_wf st.roster token u sid hros
    have hros1 : ∀ p ∈ st1.roster, p.attendeeId ≠ 0 :=
      roster_nonzero_of_map_eq hrosmap1 hros
    obtain ⟨flag2, st2, ids2, heq2, ⟨created2, hcreated2⟩, hkeys2, hvals2, hrosmap2,
      hids2, hnojoin2, hpresent2, hflag2⟩ :=
      ih st1 (flag || !truthyNat s.attendeeId) (dedupAdd ids sid)
        (fun v hv => hex v (List.mem_cons_of_mem u hv)) hkeys1 hros1 hvals1
    have hgetst2 : getSession st2.sessions (some sid) = some s := by
      rw [hcreated2]
      exact getSession_append_left hget1
    refine ⟨flag2, st2, ids2, hloopeq.trans heq2, ?_, hkeys2, hvals2,
      hrosmap2.trans hrosmap1, ?_, ?_, ?_, ?_⟩
    · rcases hsess1 with h1 | ⟨_, h1⟩
      · exact ⟨created2, by rw [hcreated2, h1]⟩
      · exact ⟨[s] ++ created2, by rw [hcreated2, h1, List.append_assoc]⟩
    · intro x
      rw [hids2 x, dedupAdd_mem]
      constructor
      · rintro ((hx | rfl) | ⟨v, hv, hvx⟩)
        · exact Or.inl hx
        · exact Or.inr ⟨u, List.mem_cons_self u rest, hexu⟩
        · exact Or.inr ⟨v, List.mem_cons_of_mem u hv, hvx⟩
      · rintro (hx | ⟨v, hv, hvx⟩)
        · exact Or.inl (Or.inl hx)
        · rcases List.mem_cons.mp hv with rfl | hv2
          · rw [hexu] at hvx
            injection hvx with hvx2
            exact Or.inl (Or.inr hvx2.symm)
          · exact Or.inr ⟨v, hv2, hvx⟩
    · intro hall
      have hju : isStandaloneSignalingJoinSession u = false :=
        hall u (List.mem_cons_self u rest)
      obtain ⟨hr1, ht1⟩ := hnojoin1 hju
      obtain ⟨hr2, ht2⟩ := hnojoin2 (fun v hv => hall v (List.mem_cons_of_mem u hv))
      exact ⟨hr2.trans hr1, ht2.trans ht1⟩
    · intro v hv
      rcases List.mem_cons.mp hv with rfl | hv2
      · rw [hexu]
        exact ⟨s, hgetst2⟩
      · exact hpresent2 v hv2
    · have hhead : (∃ s2, getSession st2.sessions (extractSignalingSessionId u) = some s2 ∧
          truthyNat s2.attendeeId = false) ↔ truthyNat s.attendeeId = false := by
        rw [hexu]
        constructor
        · rintro ⟨s2, hs2, hf⟩
          rw [hgetst2] at hs2
          injection hs2 with hs3
          rw [← hs3] at hf
          exact hf
        · intro hf
          exact ⟨s, hgetst2, hf⟩
      rw [hflag2]
      constructor
      · rintro (hor | ⟨v, hv, hvs⟩)
        · rcases Bool.or_eq_true _ _ ▸ hor with hf | hnt
          · exact Or.inl hf
          · refine Or.inr ⟨u, List.mem_cons_self u rest, ?_⟩
            rw [Bool.not_eq_true'] at hnt
            exact hhead.mpr hnt
        · exact Or.inr ⟨v, List.mem_cons_of_mem u hv, hvs⟩
      · rintro (hf | ⟨v, hv, hvs⟩)
        · exact Or.inl (by rw [hf, Bool.true_or])
        · rcases List.mem_cons.mp hv with rfl | hv2
          · left
            rw [hhead.mp hvs, Bool.not_false, Bool.or_true]
          · exact Or.inr ⟨v, hv2, hvs⟩

theorem findSessionByKey_prune (ids : List String) (sid : String) : ∀ l : List Session,
    findSessionByKey (pruneAbsentSessions l ids) sid =
      if sid ∈ ids then findSessionByKey l sid else none := by
  intro l
  induction l with
  | nil => simp [pruneAbsentSessions, findSessionByKey]
  | cons s rest ih =>
    by_cases hkeep : s.signalingSessionId ∈ ids
    · by_cases hsid : s.signalingSessionId = sid
      · rw [hsid] at hkeep
        simp [pruneAbsentSessions, hkeep, findSessionByKey, hsid]
      · simp only [pruneAbsentSessions, if_pos hkeep, findSessionByKey, if_neg hsid]
        exact ih
    · by_cases hsid : s.signalingSessionId = sid
      · rw [hsid] at hkeep
        simp only [pruneAbsentSessions, hsid, if_neg hkeep, findSessionByKey]
        rw [ih, if_neg hkeep]
      · simp only [pruneAbsentSessions, if_neg hkeep, findSessionByKey, if_neg hsid]
        exact ih

theorem getSession_prune (l : List Session) (ids : List String) (sid : String) :
    getSession (pruneAbsentSessions l ids) (some sid) =
      if sid ∈ ids then getSession l (some sid) else none := by
  by_cases hne : sid = ""
  · simp [getSession, hne]
  · simp only [getSession, if_neg hne]
    rw [findSessionByKey_prune]

theorem internalRosterStep_sessions (toUpdate : List (Nat × ParticipantUpdatePayload))
    (token : String) (st : StoreState) (p : Participant) :
    (internalRosterStep toUpdate token st p).sessions = st.sessions := by
  unfold internalRosterStep
  split
  · rfl
  · split <;> rfl

theorem internal_fold_sessions (toUpdate : List (Nat × ParticipantUpdatePayload))
    (token : String) (ps : List Participant) : ∀ st : StoreState,
    (ps.foldl (internalRosterStep toUpdate token) st).sessions = st.sessions := by
  induction ps with
  | nil => intro st; rfl
  | cons p rest ih =>
    intro st
    rw [List.foldl_cons, ih, internalRosterStep_sessions]

theorem updateParticipantsFromInternalSignaling_sessions (st : StoreState) (token : String)
    (users : List SignalingSessionPayload) :
    (updateParticipantsFromInternalSignaling st token users).sessions = st.sessions :=
  internal_fold_sessions _ token st.roster st

theorem updateSessionsLoop_error_iff (token : String) : ∀ (users : List SignalingSessionPayload)
    (st : StoreState) (flag : Bool) (ids : List String),
    (∃ e, updateSessionsLoop token users st flag ids = .error e) ↔
      ∃ u ∈ users, truthyStr (extractSignalingSessionId u) = false := by
  intro users
  induction users with
  | nil =>
    intro st flag ids
    simp [updateSessionsLoop]
  | cons u rest ih =>
    intro st flag ids
    by_cases hu : truthyStr (extractSignalingSessionId u) = true
    · obtain ⟨s, st1, sid, _, hloopeq, _, _, _, _, _, _⟩ :=
        updateSessionsLoop_cons token u rest st flag ids hu
      rw [hloopeq]
      constructor
      · intro he
        obtain ⟨v, hv, hvf⟩ := (ih st1 _ _).mp he
        exact ⟨v, List.mem_cons_of_mem u hv, hvf⟩
      · rintro ⟨v, hv, hvf⟩
        rcases List.mem_cons.mp hv with rfl | hv2
        · rw [hu] at hvf
          cases hvf
        · exact (ih st1 _ _).mpr ⟨v, hv2, hvf⟩
    · have huf : truthyStr (extractSignalingSessionId u) = false := by simpa using hu
      obtain ⟨e, he⟩ := (findOrCreateSession_error_iff st.roster token u st.sessions).mpr huf
      constructor
      · intro _
        exact ⟨u, List.mem_cons_self u rest, huf⟩
      · intro _
        refine ⟨e, ?_⟩
        simp [updateSessionsLoop, he]

theorem orphan_iff {sessions : List Session} (hvals : sessionValuesWF sessions)
    {o : Option String} {s : Session} (hget : getSession sessions o = some s) :
    truthyNat s.attendeeId = false ↔ s.attendeeId = none := by
  have hmem : s ∈ sessions := by
    cases o with
    | none => simp [getSession] at hget
    | some sid =>
      by_cases hne : sid = ""
      · simp [getSession, hne] at hget
      · exact (findSessionByKey_mem (by simpa [getSession, hne] using hget)).1
  rw [truthyNat_eq_false_iff]
  constructor
  · rintro (h | h)
    · exact h
    · exact absurd h (hvals s hmem)
  · exact Or.inl

theorem internalShape_facts {u : SignalingSessionPayload} (hu : isInternalShape u = true) :
    isStandaloneSignalingJoinSession u = false ∧
    extractSignalingSessionId u = u.sessionId ∧
    truthyStr u.sessionId = true ∧
    isInternalSignalingSession u = true := by
  simp only [isInternalShape, Bool.and_eq_true, Option.isNone_iff_eq_none] at hu
  obtain ⟨⟨hroom, hsid⟩, htr⟩ := hu
  have hj : isStandaloneSignalingJoinSession u = false := by
    simp [isStandaloneSignalingJoinSession, hsid]
  exact ⟨hj, by simp [extractSignalingSessionId, hj], htr,
    by simp [isInternalSignalingSession, hroom]⟩

theorem pruneAbsentSessions_mem {s : Session} {ids : List String} : ∀ {l : List Session},
    s ∈ pruneAbsentSessions l ids → s ∈ l ∧ s.signalingSessionId ∈ ids := by
  intro l
  induction l with
  | nil => intro h; exact absurd h (by simp [pruneAbsentSessions])
  | cons q rest ih =>
    intro h
    by_cases hq : q.signalingSessionId ∈ ids
    · rw [pruneAbsentSessions, if_pos hq] at h
      rcases List.mem_cons.mp h with rfl | h2
      · exact ⟨List.mem_cons_self _ _, hq⟩
      · obtain ⟨h3, h4⟩ := ih h2
        exact ⟨List.mem_cons_of_mem q h3, h4⟩
    · rw [pruneAbsentSessions, if_neg hq] at h
      obtain ⟨h3, h4⟩ := ih h
      exact ⟨List.mem_cons_of_mem q h3, h4⟩

theorem toUpdateLookup_append_ne {l : List (Nat × ParticipantUpdatePayload)} {a b : Nat}
    (hne : ¬ b = a) (pl : ParticipantUpdatePayload) :
    toUpdateLookup (l ++ [(b, pl)]) a = toUpdateLookup l a := by
  induction l with
  | nil => simp [toUpdateLookup, hne]
  | cons e rest ih =>
    obtain ⟨c, u⟩ := e
    by_cases hc : c = a <;> simp [toUpdateLookup, hc, ih]

theorem toUpdateLookup_append_self {l : List (Nat × ParticipantUpdatePayload)} {a : Nat}
    (h : toUpdateLookup l a = none) (pl : ParticipantUpdatePayload) :
    toUpdateLookup (l ++ [(a, pl)]) a = some pl := by
  induction l with
  | nil => simp [toUpdateLookup]
  | cons e rest ih =>
    obtain ⟨c, u⟩ := e
    by_cases hc : c = a
    · rw [toUpdateLookup, if_pos hc] at h
      cases h
    · rw [toUpdateLookup, if_neg hc] at h
      simp only [List.cons_append, toUpdateLookup, if_neg hc]
      exact ih h

theorem toUpdateLookup_push_ne {l : List (Nat × ParticipantUpdatePayload)} {a b : Nat}
    (hne : ¬ b = a) (sid : String) :
    toUpdateLookup (pushSessionId l b sid) a = toUpdateLookup l a := by
  induction l with
  | nil => rfl
  | cons e rest ih =>
    obtain ⟨c, u⟩ := e
    by_cases hcb : c = b
    · subst hcb
      have hca : ¬ c = a := hne
      simp [pushSessionId, toUpdateLookup, hca]
    · by_cases hca : c = a
      · subst hca
        simp [pushSessionId, toUpdateLookup, hcb]
      · simp [pushSessionId, toUpdateLookup, hcb, hca, ih]

theorem toUpdateLookup_push_self {l : List (Nat × ParticipantUpdatePayload)} {a : Nat}
    {pl : ParticipantUpdatePayload} (h : toUpdateLookup l a = some pl) (sid : String) :
    toUpdateLookup (pushSessionId l a sid) a =
      some { pl with sessionIds := some (pl.sessionIds.getD [] ++ [sid]) } := by
  induction l with
  | nil => cases h
  | cons e rest ih =>
    obtain ⟨c, u⟩ := e
    by_cases hc : c = a
    · rw [toUpdateLookup, if_pos hc] at h
      injection h with h2
      subst h2
      simp [pushSessionId, toUpdateLookup, hc]
    · rw [toUpdateLookup, if_neg hc] at h
      simp only [pushSessionId, if_neg hc, toUpdateLookup]
      exact ih h

theorem buildToUpdateStep_not_resolving {sessions : List Session}
    {u : SignalingSessionPayload} {a : Nat}
    (hres : resolvesTo sessions u a = false)
    (acc : List (Nat × ParticipantUpdatePayload)) :
    toUpdateLookup (buildToUpdateStep sessions acc u) a = toUpdateLookup acc a := by
  cases hus : u.sessionId with
  | none =>
    unfold buildToUpdateStep
    rw [hus]
    rfl
  | some usid =>
    cases hgs : getSession sessions (some usid) with
    | none =>
      unfold buildToUpdateStep
      rw [hus, hgs]
    | some session =>
      cases hatt : session.attendeeId with
      | none =>
        unfold buildToUpdateStep
        rw [hus, hgs]
        simp only [hatt]
      | some b =>
        by_cases hb : b = 0
        · unfold buildToUpdateStep
          rw [hus, hgs]
          simp only [hatt, if_pos hb]
        · simp only [resolvesTo, hus, hgs, hatt, truthyNat] at hres
          have hba : ¬ b = a := by
            intro hba2
            subst hba2
            simp [hb] at hres
          unfold buildToUpdateStep
          rw [hus, hgs]
          simp only [hatt, if_neg hb]
          cases hlk : toUpdateLookup acc b with
          | none =>
            simp only [hlk]
            rw [toUpdateLookup_append_ne hba]
          | some pl =>
            simp only [hlk]
            rw [toUpdateLookup_push_ne hba]

theorem buildToUpdateStep_resolving {sessions : List Session}
    {u : SignalingSessionPayload} {a : Nat}
    (hres : resolvesTo sessions u a = true)
    (acc : List (Nat × ParticipantUpdatePayload)) :
    ∃ usid, u.sessionId = some usid ∧
      buildToUpdateStep sessions acc u =
        (match toUpdateLookup acc a with
         | none => acc ++ [(a,
            { attendeeId := some a, inCall := some u.inCall, lastPing := some u.lastPing,
              permissions := some u.participantPermissions, sessionIds := some [usid] })]
         | some _ => pushSessionId acc a usid) := by
  cases hus : u.sessionId with
  | none => simp [resolvesTo, hus, getSession] at hres
  | some usid =>
    cases hgs : getSession sessions (some usid) with
    | none => simp [resolvesTo, hus, hgs] at hres
    | some session =>
      cases hatt : session.attendeeId with
      | none => simp [resolvesTo, hus, hgs, hatt, truthyNat] at hres
      | some b =>
        have hres2 : b ≠ 0 ∧ b = a := by
          simpa [resolvesTo, hus, hgs, hatt, truthyNat] using hres
        obtain ⟨hb, hba⟩ := hres2
        subst hba
        refine ⟨usid, rfl, ?_⟩
        unfold buildToUpdateStep
        rw [hus, hgs]
        simp only [hatt, if_neg hb]

theorem buildFold_not_resolving {sessions : List Session} {a : Nat} :
    ∀ (users : List SignalingSessionPayload) (acc : List (Nat × ParticipantUpdatePayload)),
    (∀ u ∈ users, resolvesTo sessions u a = false) →
    toUpdateLookup (users.foldl (buildToUpdateStep sessions) acc) a =
      toUpdateLookup acc a := by
  intro users
  induction users with
  | nil => intro acc _; rfl
  | cons u us ih =>
    intro acc hall
    rw [List.foldl_cons, ih _ (fun v hv => hall v (List.mem_cons_of_mem u hv))]
    exact buildToUpdateStep_not_resolving (hall u (List.mem_cons_self u us)) acc

theorem buildFold_lookup_some {sessions : List Session} {a : Nat} :
    ∀ (users : List SignalingSessionPayload) (acc : List (Nat × ParticipantUpdatePayload))
    (pl : ParticipantUpdatePayload) (base : List String),
    toUpdateLookup acc a = some pl → pl.sessionIds = some base →
    toUpdateLookup (users.foldl (buildToUpdateStep sessions) acc) a =
      some { pl with sessionIds := some (base ++ groupSessionIds sessions users a) } := by
  intro users
  induction users with
  | nil =>
    intro acc pl base hlk hbase
    have hpl : ({ pl with sessionIds := some base } : ParticipantUpdatePayload) = pl := by
      cases pl
      simp only [ParticipantUpdatePayload.mk.injEq] at hbase ⊢
      simp_all
    simp only [List.foldl_nil, groupSessionIds, List.filterMap_nil, List.append_nil]
    rw [hpl, hlk]
  | cons u us ih =>
    intro acc pl base hlk hbase
    rw [List.foldl_cons]
    by_cases hres : resolvesTo sessions u a = true
    · obtain ⟨usid, hus, hstep⟩ := buildToUpdateStep_resolving hres acc
      rw [hstep]
      simp only [hlk]
      have hlk2 := toUpdateLookup_push_self hlk usid
      rw [hbase] at hlk2
      simp only [Option.getD_some] at hlk2
      rw [ih _ _ (base ++ [usid]) hlk2 rfl]
      have hgroup : groupSessionIds sessions (u :: us) a =
          usid :: groupSessionIds sessions us a := by
        simp [groupSessionIds, List.filterMap_cons, hres, hus]
      rw [hgroup, List.append_assoc]
      rfl
    · have hresf : resolvesTo sessions u a = false := by simpa using hres
      have hlk2 : toUpdateLookup (buildToUpdateStep sessions acc u) a = some pl := by
        rw [buildToUpdateStep_not_resolving hresf acc]
        exact hlk
      rw [ih _ _ base hlk2 hbase]
      have hgroup : groupSessionIds sessions (u :: us) a = groupSessionIds sessions us a := by
        simp [groupSessionIds, List.filterMap_cons, hresf]
      rw [hgroup]

theorem buildFold_lookup_first {sessions : List Session} {a : Nat} :
    ∀ (users : List SignalingSessionPayload) (acc : List (Nat × ParticipantUpdatePayload))
    (u₀ : SignalingSessionPayload) (g : List SignalingSessionPayload),
    toUpdateLookup acc a = none →
    users.filter (fun u => resolvesTo sessions u a) = u₀ :: g →
    toUpdateLookup (users.foldl (buildToUpdateStep sessions) acc) a =
      some
        { attendeeId := some a, inCall := some u₀.inCall, lastPing := some u₀.lastPing,
          permissions := some u₀.participantPermissions,
          sessionIds := some (groupSessionIds sessions users a) } := by
  intro users
  induction users with
  | nil => intro acc u₀ g _ hf; simp at hf
  | cons u us ih =>
    intro acc u₀ g hlk hf
    by_cases hres : resolvesTo sessions u a = true
    · rw [List.filter_cons, if_pos (by rw [hres])] at hf
      injection hf with hf1 hf2
      subst hf1
      obtain ⟨usid, hus, hstep⟩ := buildToUpdateStep_resolving hres acc
      rw [List.foldl_cons, hstep]
      simp only [hlk]
      have hlk2 := toUpdateLookup_append_self hlk
        ({ attendeeId := some a, inCall := some u.inCall, lastPing := some u.lastPing,
           permissions := some u.participantPermissions,
           sessionIds := some [usid] } : ParticipantUpdatePayload)
      rw [buildFold_lookup_some us _ _ [usid] hlk2 rfl]
      have hgroup : groupSessionIds sessions (u :: us) a =
          usid :: groupSessionIds sessions us a := by
        simp [groupSessionIds, List.filterMap_cons, hres, hus]
      rw [hgroup]
      rfl
    · have hresf : resolvesTo sessions u a = false := by simpa using hres
      rw [List.filter_cons, if_neg (by rw [hresf]; simp)] at hf
      have hlk2 : toUpdateLookup (buildToUpdateStep sessions acc u) a = none := by
        rw [buildToUpdateStep_not_resolving hresf acc]
        exact hlk
      rw [List.foldl_cons, ih _ u₀ g hlk2 hf]
      have hgroup : groupSessionIds sessions (u :: us) a = groupSessionIds sessions us a := by
        simp [groupSessionIds, List.filterMap_cons, hresf]
      rw [hgroup]

theorem internal_fold_trace (toUpdate : List (Nat × ParticipantUpdatePayload))
    (token : String) : ∀ (ps : List Participant) (st : StoreState),
    (ps.foldl (internalRosterStep toUpdate token) st).trace =
      st.trace ++ ps.filterMap (rosterCmd toUpdate token) := by
  intro ps
  induction ps with
  | nil => intro st; simp
  | cons p rest ih =>
    intro st
    rw [List.foldl_cons, ih, List.filterMap_cons]
    cases hlk : toUpdateLookup toUpdate p.attendeeId with
    | some u =>
      have hstep : internalRosterStep toUpdate token st p =
          commitUpdateParticipant st token p.attendeeId u := by
        simp [internalRosterStep, hlk]
      simp [rosterCmd, hlk, hstep, commitUpdateParticipant]
    | none =>
      by_cases hlen : p.sessionIds.length ≠ 0
      · have hstep : internalRosterStep toUpdate token st p =
            commitUpdateParticipant st token p.attendeeId
              { attendeeId := some p.attendeeId, inCall := some CALL_FLAG_DISCONNECTED,
                sessionIds := some [] } := by
          simp [internalRosterStep, hlk, hlen]
        simp [rosterCmd, hlk, hlen, hstep, commitUpdateParticipant]
      · have hstep : internalRosterStep toUpdate token st p = st := by
          simp [internalRosterStep, hlk, hlen]
        simp [rosterCmd, hlk, hlen, hstep]

theorem rosterCmd_attendee {toUpdate : List (Nat × ParticipantUpdatePayload)}
    {token : String} {q : Participant} {c : Command}
    (h : rosterCmd toUpdate token q = some c) : c.attendeeId = q.attendeeId := by
  cases hlk : toUpdateLookup toUpdate q.attendeeId with
  | some u =>
    simp only [rosterCmd, hlk] at h
    injection h with h2
    rw [← h2]
  | none =>
    by_cases hlen : q.sessionIds.length ≠ 0
    · simp only [rosterCmd, hlk, if_pos hlen] at h
      injection h with h2
      rw [← h2]
    · simp only [rosterCmd, hlk, if_neg hlen] at h
      cases h

theorem filterMap_keyed_filter {f : Participant → Option Command}
    (hf : ∀ q c, f q = some c → c.attendeeId = q.attendeeId) :
    ∀ (ps : List Participant) (p : Participant),
    (ps.map (fun q => q.attendeeId)).Nodup → p ∈ ps →
    (ps.filterMap f).filter (fun c => decide (c.attendeeId = p.attendeeId)) =
      (f p).toList := by
  intro ps
  induction ps with
  | nil => intro p _ hp; cases hp
  | cons q rest ih =>
    intro p hnodup hp
    simp only [List.map_cons, List.nodup_cons] at hnodup
    rw [List.filterMap_cons]
    rcases List.mem_cons.mp hp with rfl | hp2
    · have hrest : (rest.filterMap f).filter
          (fun c => decide (c.attendeeId = p.attendeeId)) = [] := by
        rw [List.filter_eq_nil_iff]
        intro c hc
        rw [List.mem_filterMap] at hc
        obtain ⟨r, hr, hfr⟩ := hc
        have hcr := hf r c hfr
        simp only [decide_eq_true_eq, hcr]
        intro heq
        exact hnodup.1 (heq ▸ List.mem_map_of_mem _ hr)
      cases hfq : f p with
      | some c =>
        simp [hfq, List.filter_cons, hf p c hfq, hrest]
      | none => simp [hfq, hrest]
    · have hqp : ¬ q.attendeeId = p.attendeeId := by
        intro h
        exact hnodup.1 (h ▸ List.mem_map_of_mem _ hp2)
      cases hfq : f q with
      | some c =>
        have hc := hf q c hfq
        simp [hfq, List.filter_cons, hc, hqp, ih p hnodup.2 hp2]
      | none => simp [hfq, ih p hnodup.2 hp2]

theorem updateSessions_internal_run
    (st : StoreState) (token : String) (u0 : SignalingSessionPayload)
    (rest : List SignalingSessionPayload)
    (husers : ∀ u ∈ u0 :: rest, isInternalShape u = true)
    (hkeys : sessionKeysNodup st.sessions)
    (hvals : sessionValuesWF st.sessions)
    (hros : ∀ p ∈ st.roster, p.attendeeId ≠ 0) :
    ∃ flag2 stL ids2,
      updateSessions st token (u0 :: rest) = .ok (flag2,
        { updateParticipantsFromInternalSignaling stL token (u0 :: rest) with
          sessions := pruneAbsentSessions
            (updateParticipantsFromInternalSignaling stL token (u0 :: rest)).sessions ids2 }) ∧
      stL.roster = st.roster ∧
      (updateParticipantsFromInternalSignaling stL token (u0 :: rest)).trace =
        st.trace ++ st.roster.filterMap
          (rosterCmd (buildParticipantsToUpdate stL.sessions (u0 :: rest)) token) ∧
      (∀ s ∈ pruneAbsentSessions
          (updateParticipantsFromInternalSignaling stL token (u0 :: rest)).sessions ids2,
        ∃ u ∈ u0 :: rest, u.sessionId = some s.signalingSessionId) ∧
      (∀ u ∈ u0 :: rest, ∀ a : Nat,
        resolvesTo stL.sessions u a =
          resolvesTo (pruneAbsentSessions
            (updateParticipantsFromInternalSignaling stL token (u0 :: rest)).sessions ids2)
            u a) := by
  have hex : ∀ u ∈ u0 :: rest, truthyStr (extractSignalingSessionId u) = true := by
    intro u hu
    obtain ⟨_, hext, htr, _⟩ := internalShape_facts (husers u hu)
    rw [hext]
    exact htr
  obtain ⟨flag2, stL, ids2, hloop, _, _, _, _, hidsL, hnojoinL, _, _⟩ :=
    updateSessionsLoop_props token (u0 :: rest) st false [] hex hkeys hros hvals
  obtain ⟨hrosL, htraceL⟩ := hnojoinL (fun u hu => (internalShape_facts (husers u hu)).1)
  have hint : isInternalSignalingSession u0 = true :=
    (internalShape_facts (husers u0 (List.mem_cons_self u0 rest))).2.2.2
  have husid : ∀ u ∈ u0 :: rest, ∃ sid, u.sessionId = some sid ∧ sid ∈ ids2 := by
    intro u hu
    obtain ⟨sid, hexu, _⟩ := (truthyStr_eq_true_iff _).mp (hex u hu)
    obtain ⟨_, hext, _, _⟩ := internalShape_facts (husers u hu)
    refine ⟨sid, hext ▸ hexu, (hidsL sid).mpr (Or.inr ⟨u, hu, hexu⟩)⟩
  have hIsess : (updateParticipantsFromInternalSignaling stL token (u0 :: rest)).sessions =
      stL.sessions := updateParticipantsFromInternalSignaling_sessions stL token (u0 :: rest)
  refine ⟨flag2, stL, ids2, ?_, hrosL, ?_, ?_, ?_⟩
  · simp [updateSessions, hloop, hint]
  · have htr : (updateParticipantsFromInternalSignaling stL token (u0 :: rest)).trace =
        stL.trace ++ stL.roster.filterMap
          (rosterCmd (buildParticipantsToUpdate stL.sessions (u0 :: rest)) token) :=
      internal_fold_trace _ token stL.roster stL
    rw [htr, htraceL, hrosL]
  · intro s hs
    obtain ⟨_, hmemids⟩ := pruneAbsentSessions_mem hs
    rcases (hidsL s.signalingSessionId).mp hmemids with hemp | ⟨u, hu, hexu⟩
    · cases hemp
    · obtain ⟨_, hext, _, _⟩ := internalShape_facts (husers u hu)
      exact ⟨u, hu, hext ▸ hexu⟩
  · intro u hu a
    obtain ⟨sid, husidu, hsidmem⟩ := husid u hu
    have hgs : getSession (pruneAbsentSessions
        (updateParticipantsFromInternalSignaling stL token (u0 :: rest)).sessions ids2)
        (some sid) = getSession stL.sessions (some sid) := by
      rw [getSession_prune, if_pos hsidmem, hIsess]
    unfold resolvesTo
    rw [husidu, hgs]

/-! Claim theorems. -/

/-- Claim C3: `updateParticipantsDisconnectedFromStandaloneSignaling(token)` issues,
for every participant currently known to have any active session, one update
command clearing `inCall` to the disconnected flag (and carrying no other
field), and no command it issues modifies any participant's `sessionIds`
(the commands carry no `sessionIds` field and the roster's session id lists
are unchanged); the session registry is untouched. -/
theorem updateParticipantsDisconnected_clears_inCall_only (st : StoreState) (token : String) :
    (updateParticipantsDisconnectedFromStandaloneSignaling st token).trace =
      st.trace ++ st.roster.filterMap (discCmdFor token) ∧
    ((updateParticipantsDisconnectedFromStandaloneSignaling st token).roster).map
        (fun p => p.sessionIds) = st.roster.map (fun p => p.sessionIds) ∧
    (updateParticipantsDisconnectedFromStandaloneSignaling st token).sessions = st.sessions := by
  obtain ⟨ht, hs, hr⟩ := disc_fold_props token st.roster st
  exact ⟨ht, hr, hs⟩

/-- Claim C5: `findOrCreateSession` is idempotent.  When the extracted
signaling session id is already registered, the call returns the existing
record and the unchanged registry, for every roster (hence performing no
observable roster query). -/
theorem findOrCreateSession_idempotent (roster : List Participant) (token : String)
    (user : SignalingSessionPayload) (sessions : List Session) (sid : String) (s : Session)
    (hex : extractSignalingSessionId user = some sid)
    (hget : getSession sessions (some sid) = some s) :
    findOrCreateSession roster token user sessions = .ok (s, sessions) := by
  have hsid : ¬ sid = "" := by
    intro h
    rw [h] at hget
    simp [getSession] at hget
  unfold findOrCreateSession
  rw [hex]
  simp [hsid, hget]

/-- Claim C5 witness: on a registry already holding Alice's session, the
action returns that record unchanged. -/
theorem findOrCreateSession_idempotent_witness :
    extractSignalingSessionId wUpdatePayload = some "s1" ∧
    getSession wStateAlice.sessions (some "s1") = some wSessionAlice ∧
    findOrCreateSession [] "room" wUpdatePayload wStateAlice.sessions =
      .ok (wSessionAlice, wStateAlice.sessions) :=
  ⟨by decide, by decide,
    findOrCreateSession_idempotent [] "room" wUpdatePayload wStateAlice.sessions "s1"
      wSessionAlice (by decide) (by decide)⟩

/-- Claim C6: over the union of the three payload shapes, exactly one of the
three classifier predicates returns true. -/
theorem shape_classifiers_exclusive_exhaustive (u : SignalingSessionPayload)
    (h : (isInternalShape u || isJoinShape u || isUpdateShape u) = true) :
    ((if isInternalSignalingSession u then 1 else 0) +
     (if isStandaloneSignalingJoinSession u then 1 else 0) +
     (if isStandaloneSignalingUpdateSession u then 1 else 0) : Nat) = 1 := by
  cases hr : u.roomId <;> cases hs : u.sessionid <;> cases hc : u.sessionId <;>
    simp_all [isInternalShape, isJoinShape, isUpdateShape, isInternalSignalingSession,
      isStandaloneSignalingJoinSession, isStandaloneSignalingUpdateSession, truthyStr]

/-- Claim C6 witness: an internal snapshot entry satisfies exactly one
classifier. -/
theorem shape_classifiers_exclusive_exhaustive_witness :
    (isInternalShape wInternalA || isJoinShape wInternalA || isUpdateShape wInternalA) = true ∧
    ((if isInternalSignalingSession wInternalA then 1 else 0) +
     (if isStandaloneSignalingJoinSession wInternalA then 1 else 0) +
     (if isStandaloneSignalingUpdateSession wInternalA then 1 else 0) : Nat) = 1 :=
  ⟨by decide, shape_classifiers_exclusive_exhaustive wInternalA (by decide)⟩

/-- Claim C2 (code/test divergence evidence): a standalone-update entry whose
session resolves to a known attendee present in the roster leaves the whole
state, in particular the command trace, unchanged — the source's dispatch to
`updateParticipantChangedFromStandaloneSignaling` is commented out and the
handler is not defined in the store, while the store's own test suite expects
one `updateParticipant` commit per such entry. -/
theorem updateSessions_standalone_update_issues_no_command :
    updateSessions wStateAlice "room" [wUpdatePayload] = .ok (false, wStateAlice) := by
  decide

/-- Claim C7 counterexample: a batch entry whose registered session resolves
to attendee 7 (a distinct resolved attendee) produces zero update commands,
not exactly one, because attendee 7 is absent from the roster list the
emission loop walks: the run returns the state unchanged (empty trace). -/
theorem internal_grouping_missing_roster_counterexample :
    updateSessions wStateGone "room" [wInternalGone] = .ok (false, wStateGone) ∧
    resolvesTo wStateGone.sessions wInternalGone 7 = true ∧
    wStateGone.trace = [] := by
  refine ⟨by decide, by decide, rfl⟩

/-- Claim C1: an internal-signaling batch is authoritative and complete.
After `updateSessions` on an internal-shaped batch, every session remaining
in the registry is named by the batch (all others were deleted), and every
roster participant with a non-empty `sessionIds` whose attendee id no entry
of the batch resolves to receives exactly one update command, setting
`inCall` to the disconnected flag and `sessionIds` to the empty list. -/
theorem updateSessions_internal_authoritative
    (st : StoreState) (token : String) (users : List SignalingSessionPayload)
    (b : Bool) (st2 : StoreState)
    (husers : ∀ u ∈ users, isInternalShape u = true)
    (hne : users ≠ [])
    (hkeys : sessionKeysNodup st.sessions)
    (hvals : sessionValuesWF st.sessions)
    (hros : ∀ p ∈ st.roster, p.attendeeId ≠ 0)
    (hnodup : (st.roster.map (fun q => q.attendeeId)).Nodup)
    (hrun : updateSessions st token users = .ok (b, st2)) :
    (∀ s ∈ st2.sessions, ∃ u ∈ users, u.sessionId = some s.signalingSessionId) ∧
    (∃ tail, st2.trace = st.trace ++ tail ∧
      ∀ p ∈ st.roster, p.sessionIds ≠ [] →
        (∀ u ∈ users, resolvesTo st2.sessions u p.attendeeId = false) →
        tail.filter (fun c => decide (c.attendeeId = p.attendeeId)) =
          [⟨token, p.attendeeId,
            { attendeeId := some p.attendeeId, inCall := some CALL_FLAG_DISCONNECTED,
              sessionIds := some [] }⟩]) := by
  cases users with
  | nil => exact absurd rfl hne
  | cons u0 rest =>
    obtain ⟨flag2, stL, ids2, hrun2, hrosL, htrace, hmem, htransfer⟩ :=
      updateSessions_internal_run st token u0 rest husers hkeys hvals hros
    rw [hrun2] at hrun
    injection hrun with hpair
    rw [Prod.mk.injEq] at hpair
    obtain ⟨hb, hst⟩ := hpair
    subst hst
    constructor
    · intro s hs
      exact hmem s hs
    · refine ⟨st.roster.filterMap
        (rosterCmd (buildParticipantsToUpdate stL.sessions (u0 :: rest)) token), htrace, ?_⟩
      intro p hp hpne hnores
      have hnoresL : ∀ u ∈ u0 :: rest,
          resolvesTo stL.sessions u p.attendeeId = false := by
        intro u hu
        rw [htransfer u hu p.attendeeId]
        exact hnores u hu
      have hlk : toUpdateLookup (buildParticipantsToUpdate stL.sessions (u0 :: rest))
          p.attendeeId = none :=
        (buildFold_not_resolving _ _ hnoresL).trans rfl
      have hlen : p.sessionIds.length ≠ 0 := fun h => hpne (List.length_eq_zero.mp h)
      have hcmd : rosterCmd (buildParticipantsToUpdate stL.sessions (u0 :: rest)) token p =
          some ⟨token, p.attendeeId,
            { attendeeId := some p.attendeeId, inCall := some CALL_FLAG_DISCONNECTED,
              sessionIds := some [] }⟩ := by
        simp [rosterCmd, hlk, hlen]
      rw [filterMap_keyed_filter (fun q c h => rosterCmd_attendee h) st.roster p hnodup hp,
        hcmd]
      rfl

/-- Claim C1 witness: after the fixture internal snapshot (Alice and two Bob
devices), Carol — absent from the snapshot but holding a session id —
receives exactly one offline update. -/
theorem updateSessions_internal_authoritative_witness :
    ((∀ u ∈ wInternalBatch, isInternalShape u = true) ∧
      wInternalBatch ≠ [] ∧ sessionKeysNodup wState.sessions ∧
      sessionValuesWF wState.sessions ∧ (∀ p ∈ wState.roster, p.attendeeId ≠ 0) ∧
      (wState.roster.map (fun q => q.attendeeId)).Nodup ∧
      updateSessions wState "room" wInternalBatch = .ok (false, wStInternal)) ∧
    ((∀ s ∈ wStInternal.sessions, ∃ u ∈ wInternalBatch,
        u.sessionId = some s.signalingSessionId) ∧
      (∃ tail, wStInternal.trace = wState.trace ++ tail ∧
        ∀ p ∈ wState.roster, p.sessionIds ≠ [] →
          (∀ u ∈ wInternalBatch, resolvesTo wStInternal.sessions u p.attendeeId = false) →
          tail.filter (fun c => decide (c.attendeeId = p.attendeeId)) =
            [⟨"room", p.attendeeId,
              { attendeeId := some p.attendeeId, inCall := some CALL_FLAG_DISCONNECTED,
                sessionIds := some [] }⟩])) :=
  ⟨⟨by decide, by decide, by decide, by decide, by decide, by decide, by decide⟩,
    updateSessions_internal_authoritative wState "room" wInternalBatch false wStInternal
      (by decide) (by decide) (by decide) (by decide) (by decide) (by decide) (by decide)⟩

/-- Claim C7 (amended): in an internal-signaling batch, entries are grouped
by resolved attendee; for each distinct resolved attendee present in the
roster, exactly one update command is issued, carrying the group's first
entry's `inCall`, `lastPing` and `permissions` and the accumulated session
ids of that attendee's entries in batch order; a resolved attendee absent
from the roster receives no command (see the counterexample); entries with
no resolvable attendee are excluded from grouping. -/
theorem updateSessions_internal_grouping
    (st : StoreState) (token : String) (users : List SignalingSessionPayload)
    (b : Bool) (st2 : StoreState) (p : Participant)
    (u₀ : SignalingSessionPayload) (g : List SignalingSessionPayload)
    (husers : ∀ u ∈ users, isInternalShape u = true)
    (hkeys : sessionKeysNodup st.sessions)
    (hvals : sessionValuesWF st.sessions)
    (hros : ∀ p ∈ st.roster, p.attendeeId ≠ 0)
    (hnodup : (st.roster.map (fun q => q.attendeeId)).Nodup)
    (hrun : updateSessions st token users = .ok (b, st2))
    (hp : p ∈ st.roster)
    (hgroup : users.filter (fun u => resolvesTo st2.sessions u p.attendeeId) = u₀ :: g) :
    ∃ tail, st2.trace = st.trace ++ tail ∧
      tail.filter (fun c => decide (c.attendeeId = p.attendeeId)) =
        [⟨token, p.attendeeId,
          { attendeeId := some p.attendeeId, inCall := some u₀.inCall,
            lastPing := some u₀.lastPing, permissions := some u₀.participantPermissions,
            sessionIds := some (groupSessionIds st2.sessions users p.attendeeId) }⟩] := by
  cases users with
  | nil => simp at hgroup
  | cons v0 rest =>
    obtain ⟨flag2, stL, ids2, hrun2, hrosL, htrace, hmem, htransfer⟩ :=
      updateSessions_internal_run st token v0 rest husers hkeys hvals hros
    rw [hrun2] at hrun
    injection hrun with hpair
    rw [Prod.mk.injEq] at hpair
    obtain ⟨hb, hst⟩ := hpair
    subst hst
    have hfilterL : (v0 :: rest).filter
        (fun u => resolvesTo stL.sessions u p.attendeeId) = u₀ :: g := by
      rw [List.filter_congr (fun u hu => by rw [htransfer u hu p.attendeeId])]
      exact hgroup
    have hgroupeq : groupSessionIds stL.sessions (v0 :: rest) p.attendeeId =
        groupSessionIds
          ({ updateParticipantsFromInternalSignaling stL token (v0 :: rest) with
            sessions := pruneAbsentSessions
              (updateParticipantsFromInternalSignaling stL token (v0 :: rest)).sessions
              ids2 }).sessions (v0 :: rest) p.attendeeId := by
      unfold groupSessionIds
      exact List.filterMap_congr (fun u hu => by rw [htransfer u hu p.attendeeId])
    have hlk := buildFold_lookup_first (v0 :: rest) [] u₀ g rfl hfilterL
    have hcmd : rosterCmd (buildParticipantsToUpdate stL.sessions (v0 :: rest)) token p =
        some ⟨token, p.attendeeId,
          { attendeeId := some p.attendeeId, inCall := some u₀.inCall,
            lastPing := some u₀.lastPing, permissions := some u₀.participantPermissions,
            sessionIds := some (groupSessionIds stL.sessions (v0 :: rest) p.attendeeId) }⟩ := by
      simp only [rosterCmd]
      rw [show toUpdateLookup (buildParticipantsToUpdate stL.sessions (v0 :: rest))
        p.attendeeId = _ from hlk]
    refine ⟨st.roster.filterMap
      (rosterCmd (buildParticipantsToUpdate stL.sessions (v0 :: rest)) token), htrace, ?_⟩
    rw [filterMap_keyed_filter (fun q c h => rosterCmd_attendee h) st.roster p hnodup hp,
      hcmd, ← hgroupeq]
    rfl

/-- Claim C7 witness: Bob's two devices in the fixture snapshot yield one
command for Bob carrying both session ids in batch order. -/
theorem updateSessions_internal_grouping_witness :
    ((∀ u ∈ wInternalBatch, isInternalShape u = true) ∧
      sessionKeysNodup wState.sessions ∧ sessionValuesWF wState.sessions ∧
      (∀ p ∈ wState.roster, p.attendeeId ≠ 0) ∧
      (wState.roster.map (fun q => q.attendeeId)).Nodup ∧
      updateSessions wState "room" wInternalBatch = .ok (false, wStInternal) ∧
      wBob ∈ wState.roster ∧
      wInternalBatch.filter
        (fun u => resolvesTo wStInternal.sessions u wBob.attendeeId) =
        [wInternalB1, wInternalB2]) ∧
    (∃ tail, wStInternal.trace = wState.trace ++ tail ∧
      tail.filter (fun c => decide (c.attendeeId = wBob.attendeeId)) =
        [⟨"room", wBob.attendeeId,
          { attendeeId := some wBob.attendeeId, inCall := some wInternalB1.inCall,
            lastPing := some wInternalB1.lastPing,
            permissions := some wInternalB1.participantPermissions,
            sessionIds := some
              (groupSessionIds wStInternal.sessions wInternalBatch wBob.attendeeId) }⟩]) :=
  ⟨⟨by decide, by decide, by decide, by decide, by decide, by decide, by decide, by decide⟩,
    updateSessions_internal_grouping wState "room" wInternalBatch false wStInternal wBob
      wInternalB1 [wInternalB2] (by decide) (by decide) (by decide) (by decide) (by decide)
      (by decide) (by decide) (by decide)⟩

/-- Claim C4: leave processing.  (1) `updateSessionsLeft` removes from the
registry exactly the sessions named by the batch, whether or not a
participant update occurred.  (2) An id resolving to no registered session
or to a session without a truthy attendee is skipped (the state is returned
unchanged, without error).  (3) An id whose attendee is missing from the
roster is likewise skipped.  (4) When the owning participant is found and
holds the id exactly once, exactly one command is issued, carrying the list
with that single occurrence removed (its length drops by one) and an
`inCall` equal to the disconnected flag when the resulting list is empty and
to the participant's previous `inCall` otherwise; the registry is not
touched by this step. -/
theorem updateSessionsLeft_spec :
    (∀ (st : StoreState) (token : String) (ids : List String),
      (updateSessionsLeft st token ids).sessions =
        st.sessions.filter (fun s => decide (s.signalingSessionId ∉ ids))) ∧
    (∀ (st : StoreState) (token : String) (sid : String),
      truthyNat ((getSession st.sessions (some sid)).bind (fun s => s.attendeeId)) = false →
      updateParticipantLeftOne st token sid = st) ∧
    (∀ (st : StoreState) (token : String) (sid : String) (a : Nat),
      (getSession st.sessions (some sid)).bind (fun s => s.attendeeId) = some a → a ≠ 0 →
      getParticipant st.roster a = none →
      updateParticipantLeftOne st token sid = st) ∧
    (∀ (st : StoreState) (token : String) (sid : String) (a : Nat) (p : Participant),
      (getSession st.sessions (some sid)).bind (fun s => s.attendeeId) = some a → a ≠ 0 →
      getParticipant st.roster a = some p → countEq p.sessionIds sid = 1 →
      (updateParticipantLeftOne st token sid).sessions = st.sessions ∧
      (updateParticipantLeftOne st token sid).trace = st.trace ++
        [⟨token, a,
          { sessionIds := some (removeAllEq p.sessionIds sid),
            inCall := some (if (removeAllEq p.sessionIds sid).length ≠ 0 then p.inCall
              else CALL_FLAG_DISCONNECTED) }⟩] ∧
      (removeAllEq p.sessionIds sid).length + 1 = p.sessionIds.length) := by
  refine ⟨?_, ?_, ?_, ?_⟩
  · intro st token ids
    exact updateSessionsLeft_sessions_filter st token ids
  · intro st token sid h
    simp [updateParticipantLeftOne, h]
  · intro st token sid a ha hane hget
    simp [updateParticipantLeftOne, ha, truthyNat, hane, hget]
  · intro st token sid a p ha hane hget hcount
    have hrun : updateParticipantLeftOne st token sid =
        commitUpdateParticipant st token a
          { sessionIds := some (removeAllEq p.sessionIds sid),
            inCall := some (if (removeAllEq p.sessionIds sid).length ≠ 0 then p.inCall
              else CALL_FLAG_DISCONNECTED) } := by
      simp [updateParticipantLeftOne, ha, truthyNat, hane, hget]
    refine ⟨by rw [hrun]; rfl, by rw [hrun]; rfl, ?_⟩
    have hlen := removeAllEq_length_add_count p.sessionIds sid
    rw [hcount] at hlen
    exact hlen

/-- Claim C4 witness: leaving Alice's only session commits the emptied list
with a cleared `inCall`, and removes exactly one id. -/
theorem updateSessionsLeft_spec_witness :
    ((getSession wStateAlice.sessions (some "s1")).bind (fun s => s.attendeeId) = some 1 ∧
      (1 : Nat) ≠ 0 ∧ getParticipant wStateAlice.roster 1 = some wAlice ∧
      countEq wAlice.sessionIds "s1" = 1) ∧
    ((updateParticipantLeftOne wStateAlice "room" "s1").sessions = wStateAlice.sessions ∧
      (updateParticipantLeftOne wStateAlice "room" "s1").trace = wStateAlice.trace ++
        [⟨"room", 1,
          { sessionIds := some (removeAllEq wAlice.sessionIds "s1"),
            inCall := some (if (removeAllEq wAlice.sessionIds "s1").length ≠ 0 then wAlice.inCall
              else CALL_FLAG_DISCONNECTED) }⟩] ∧
      (removeAllEq wAlice.sessionIds "s1").length + 1 = wAlice.sessionIds.length) :=
  ⟨⟨by decide, by decide, by decide, by decide⟩,
    updateSessionsLeft_spec.2.2.2 wStateAlice "room" "s1" 1 wAlice
      (by decide) (by decide) (by decide) (by decide)⟩

/-- Claim C10: leave processing filters the participant's `sessionIds` by the
incoming signaling session id itself (all equal occurrences), not by the
session's recorded room-session id: when the two differ and the incoming id
does not occur in the participant's list, the committed list is exactly the
unchanged previous list, no participant's `sessionIds` changes in the
roster, and the session is still deleted from the registry. -/
theorem updateSessionsLeft_filters_by_signaling_id
    (st : StoreState) (token : String) (sid : String) (a : Nat) (p : Participant)
    (ids : List String) (sess : Session)
    (hsess : getSession st.sessions (some sid) = some sess)
    (hatt : sess.attendeeId = some a) (hane : a ≠ 0)
    (hget : getParticipant st.roster a = some p)
    (hdiff : sess.sessionId ≠ some sid)
    (hnotmem : sid ∉ p.sessionIds)
    (hnodup : (st.roster.map (fun q => q.attendeeId)).Nodup)
    (hin : sid ∈ ids) :
    (updateParticipantLeftOne st token sid).trace = st.trace ++
      [⟨token, a,
        { sessionIds := some p.sessionIds,
          inCall := some (if p.sessionIds.length ≠ 0 then p.inCall
            else CALL_FLAG_DISCONNECTED) }⟩] ∧
    ((updateParticipantLeftOne st token sid).roster).map (fun q => q.sessionIds) =
      st.roster.map (fun q => q.sessionIds) ∧
    getSession (updateSessionsLeft st token ids).sessions (some sid) = none := by
  have ha : (getSession st.sessions (some sid)).bind (fun s => s.attendeeId) = some a := by
    rw [hsess]
    exact hatt
  have hrm : removeAllEq p.sessionIds sid = p.sessionIds := removeAllEq_of_not_mem hnotmem
  have hrun : updateParticipantLeftOne st token sid =
      commitUpdateParticipant st token a
        { sessionIds := some p.sessionIds,
          inCall := some (if p.sessionIds.length ≠ 0 then p.inCall
            else CALL_FLAG_DISCONNECTED) } := by
    simp [updateParticipantLeftOne, ha, truthyNat, hane, hget, hrm]
  refine ⟨by rw [hrun]; rfl, ?_, ?_⟩
  · rw [hrun]
    exact applyUpdate_map_sessionIds_keyed a _ st.roster p hnodup hget rfl
  · rw [updateSessionsLeft_sessions_filter]
    by_cases hsid : sid = ""
    · simp [getSession, hsid]
    · simp only [getSession, if_neg hsid]
      apply findSessionByKey_none
      intro s hs
      rw [List.mem_filter] at hs
      have h2 : s.signalingSessionId ∉ ids := by simpa using hs.2
      intro hkey
      rw [hkey] at h2
      exact h2 hin

/-- Claim C10 witness: a session whose signaling id `sig7` differs from its
recorded room-session id `s2` leaves Bob's list untouched while the session
is deleted. -/
theorem updateSessionsLeft_filters_by_signaling_id_witness :
    (getSession wStateSplit.sessions (some "sig7") = some wSessionSplit ∧
      wSessionSplit.attendeeId = some 2 ∧ (2 : Nat) ≠ 0 ∧
      getParticipant wStateSplit.roster 2 = some wBob ∧
      wSessionSplit.sessionId ≠ some "sig7" ∧ "sig7" ∉ wBob.sessionIds ∧
      (wStateSplit.roster.map (fun q => q.attendeeId)).Nodup ∧
      "sig7" ∈ ["sig7"]) ∧
    ((updateParticipantLeftOne wStateSplit "room" "sig7").trace = wStateSplit.trace ++
      [⟨"room", 2,
        { sessionIds := some wBob.sessionIds,
          inCall := some (if wBob.sessionIds.length ≠ 0 then wBob.inCall
            else CALL_FLAG_DISCONNECTED) }⟩] ∧
    ((updateParticipantLeftOne wStateSplit "room" "sig7").roster).map
        (fun q => q.sessionIds) = wStateSplit.roster.map (fun q => q.sessionIds) ∧
    getSession (updateSessionsLeft wStateSplit "room" ["sig7"]).sessions (some "sig7") =
      none) :=
  ⟨⟨by decide, by decide, by decide, by decide, by decide, by decide, by decide, by decide⟩,
    updateSessionsLeft_filters_by_signaling_id wStateSplit "room" "sig7" 2 wBob
      ["sig7"] wSessionSplit (by decide) (by decide) (by decide) (by decide) (by decide)
      (by decide) (by decide) (by decide)⟩

/-- Claim C8: for a nonempty batch whose entries all carry a usable session
id, `updateSessions` succeeds, every entry's session is still registered
after the call, and the returned flag is true exactly when some entry's
registered session has no resolved attendee (an orphan, `attendeeId`
undefined). -/
theorem updateSessions_hasUnknownSessions_iff
    (st : StoreState) (token : String) (users : List SignalingSessionPayload)
    (hne : users ≠ [])
    (hex : ∀ u ∈ users, truthyStr (extractSignalingSessionId u) = true)
    (hkeys : sessionKeysNodup st.sessions)
    (hvals : sessionValuesWF st.sessions)
    (hros : ∀ p ∈ st.roster, p.attendeeId ≠ 0) :
    ∃ b st2, updateSessions st token users = .ok (b, st2) ∧
      (∀ u ∈ users, ∃ s, getSession st2.sessions (extractSignalingSessionId u) = some s) ∧
      (b = true ↔ ∃ u ∈ users, ∃ s,
        getSession st2.sessions (extractSignalingSessionId u) = some s ∧
        s.attendeeId = none) := by
  obtain ⟨flag2, stL, ids2, hloop, ⟨created, hcreated⟩, hkeysL, hvalsL, _, hidsL, _,
    hpresentL, hflagL⟩ :=
    updateSessionsLoop_props token users st false [] hex hkeys hros hvals
  cases users with
  | nil => exact absurd rfl hne
  | cons u0 rest =>
    have hmain : ∃ stF, updateSessions st token (u0 :: rest) = .ok (flag2, stF) ∧
        ∀ u ∈ u0 :: rest, getSession stF.sessions (extractSignalingSessionId u) =
          getSession stL.sessions (extractSignalingSessionId u) := by
      by_cases hint : isInternalSignalingSession u0 = true
      · refine ⟨{ updateParticipantsFromInternalSignaling stL token (u0 :: rest) with
            sessions := pruneAbsentSessions
              (updateParticipantsFromInternalSignaling stL token (u0 :: rest)).sessions
              ids2 }, by simp [updateSessions, hloop, hint], ?_⟩
        intro u hu
        obtain ⟨sid, hexu, hneu⟩ := (truthyStr_eq_true_iff _).mp (hex u hu)
        rw [hexu]
        have hsidmem : sid ∈ ids2 := (hidsL sid).mpr (Or.inr ⟨u, hu, hexu⟩)
        show getSession (pruneAbsentSessions
          (updateParticipantsFromInternalSignaling stL token (u0 :: rest)).sessions ids2)
          (some sid) = _
        rw [getSession_prune, if_pos hsidmem,
          updateParticipantsFromInternalSignaling_sessions]
      · exact ⟨stL, by simp [updateSessions, hloop, hint], fun u hu => rfl⟩
    obtain ⟨stF, hrun, htrans⟩ := hmain
    refine ⟨flag2, stF, hrun, ?_, ?_⟩
    · intro u hu
      obtain ⟨s, hs⟩ := hpresentL u hu
      exact ⟨s, by rw [htrans u hu]; exact hs⟩
    · rw [hflagL]
      constructor
      · rintro (hfalse | ⟨u, hu, s, hs, hf⟩)
        · cases hfalse
        · refine ⟨u, hu, s, by rw [htrans u hu]; exact hs, ?_⟩
          exact (orphan_iff hvalsL hs).mp hf
      · rintro ⟨u, hu, s, hs, hnone⟩
        right
        rw [htrans u hu] at hs
        exact ⟨u, hu, s, hs, (orphan_iff hvalsL hs).mpr hnone⟩

/-- Claim C8 witness: a batch with one entry whose actor is not in the
roster returns true and keeps the orphan session registered. -/
theorem updateSessions_hasUnknownSessions_iff_witness :
    (([wInternalA, wInternalD] : List SignalingSessionPayload) ≠ [] ∧
      (∀ u ∈ [wInternalA, wInternalD], truthyStr (extractSignalingSessionId u) = true) ∧
      sessionKeysNodup wState.sessions ∧ sessionValuesWF wState.sessions ∧
      (∀ p ∈ wState.roster, p.attendeeId ≠ 0)) ∧
    (∃ b st2, updateSessions wState "room" [wInternalA, wInternalD] = .ok (b, st2) ∧
      (∀ u ∈ [wInternalA, wInternalD], ∃ s,
        getSession st2.sessions (extractSignalingSessionId u) = some s) ∧
      (b = true ↔ ∃ u ∈ [wInternalA, wInternalD], ∃ s,
        getSession st2.sessions (extractSignalingSessionId u) = some s ∧
        s.attendeeId = none)) :=
  ⟨⟨by decide, by decide, by decide, by decide, by decide⟩,
    updateSessions_hasUnknownSessions_iff wState "room" [wInternalA, wInternalD]
      (by decide) (by decide) (by decide) (by decide) (by decide)⟩

/-- Claim C9 (amended): `findOrCreateSession` throws exactly when the payload
offers no usable session id (for payloads that do not carry both id field
spellings, as none of the union's shapes does); for a nonempty batch,
`updateSessions` propagates an exception exactly when some entry offers no
usable id.  (Classifying an empty batch throws a TypeError, see the
counterexample; `updateSessionsLeft` and the standalone-disconnect bulk
operation are total.) -/
theorem updateSessions_error_characterization :
    (∀ (roster : List Participant) (token : String) (u : SignalingSessionPayload)
      (sessions : List Session),
      ¬(u.sessionid.isSome = true ∧ u.sessionId.isSome = true) →
      ((∃ e, findOrCreateSession roster token u sessions = .error e) ↔
        (truthyStr u.sessionid = false ∧ truthyStr u.sessionId = false))) ∧
    (∀ (st : StoreState) (token : String) (users : List SignalingSessionPayload),
      users ≠ [] →
      ((∃ e, updateSessions st token users = .error e) ↔
        ∃ u ∈ users, truthyStr (extractSignalingSessionId u) = false)) := by
  constructor
  · intro roster token u sessions hnover
    rw [findOrCreateSession_error_iff]
    unfold extractSignalingSessionId isStandaloneSignalingJoinSession
    by_cases hj : u.sessionid.isSome = true
    · have hcid : u.sessionId.isSome = false := by
        cases hcc : u.sessionId with
        | none => rfl
        | some v => exact absurd ⟨hj, by simp [hcc]⟩ hnover
      have hcf : truthyStr u.sessionId = false := by
        cases hcc : u.sessionId with
        | none => rfl
        | some v => rw [hcc] at hcid; simp at hcid
      simp [hj, hcf]
    · have hjn : u.sessionid = none := by
        cases hcc : u.sessionid with
        | none => rfl
        | some v => rw [hcc] at hj; simp at hj
      simp [hj, hjn, truthyStr]
  · intro st token users hne
    cases hloop : updateSessionsLoop token users st false [] with
    | error e =>
      constructor
      · intro _
        exact (updateSessionsLoop_error_iff token users st false []).mp ⟨e, hloop⟩
      · intro _
        refine ⟨e, ?_⟩
        simp [updateSessions, hloop]
    | ok r =>
      obtain ⟨flag2, st2, ids2⟩ := r
      cases users with
      | nil => exact absurd rfl hne
      | cons u0 rest =>
        have hrunF : ∃ b stF, updateSessions st token (u0 :: rest) = .ok (b, stF) := by
          by_cases hint : isInternalSignalingSession u0 = true
          · exact ⟨flag2, { updateParticipantsFromInternalSignaling st2 token (u0 :: rest) with
              sessions := pruneAbsentSessions
                (updateParticipantsFromInternalSignaling st2 token (u0 :: rest)).sessions
                ids2 }, by simp [updateSessions, hloop, hint]⟩
          · exact ⟨flag2, st2, by simp [updateSessions, hloop, hint]⟩
        obtain ⟨b, stF, hrunF⟩ := hrunF
        constructor
        · rintro ⟨e, he⟩
          rw [hrunF] at he
          cases he
        · intro hfail
          obtain ⟨e, he⟩ :=
            (updateSessionsLoop_error_iff token (u0 :: rest) st false []).mpr hfail
          rw [hloop] at he
          cases he

/-- Claim C9 witness: a one-entry batch whose payload carries no session id
propagates the invalid-payload failure. -/
theorem updateSessions_error_characterization_witness :
    (([wNoIdPayload] : List SignalingSessionPayload) ≠ []) ∧
    ((∃ e, updateSessions wState "room" [wNoIdPayload] = .error e) ↔
      ∃ u ∈ [wNoIdPayload], truthyStr (extractSignalingSessionId u) = false) :=
  ⟨by decide,
    updateSessions_error_characterization.2 wState "room" [wNoIdPayload] (by decide)⟩

/-- Claim C9 counterexample: reconciling an empty batch raises an exception
(the source evaluates `roomId in users[0]` with `users[0]` undefined) even
though no entry lacks a session id, contradicting the claim that only the
invalid-payload case propagates. -/
theorem updateSessions_empty_batch_error :
    updateSessions wState "room" ([] : List SignalingSessionPayload) =
      .error "TypeError: cannot read roomId of an undefined first element" := by
  decide

end Spreed
